import Mathlib

/-!
Verification of the deterministic decision, order-sizing and
ticket-materialization core of the trading-operations pipeline
(`scripts/riskguard_run.py`, `scripts/trade_builder.py`,
`scripts/ticket_render.py`, `scripts/confirmations_submit.py`).

Modelling conventions:
* Python floats are modelled as exact rationals (`ℚ`).
* Database reads are explicit input structures, database writes are explicit
  output fields (the intended-trades store is threaded through the sizing
  engine so frame properties can be stated).
* Python string operations are modelled by kernel-computable functions on the
  underlying character lists, with Python's ASCII semantics (the pipeline's
  symbols, sides and status strings are ASCII).
* Python `list.sort(key=...)` is modelled by insertion sort over the
  corresponding lexicographic key comparator (both are stable).
-/

namespace TradingOps

/-! ### Comparator calculus for Python tuple-key sorts -/

/-- Three-way comparison on naturals. -/
def cmpNat (a b : ℕ) : Ordering :=
  if a < b then .lt else if b < a then .gt else .eq

/-- Three-way comparison on integers. -/
def cmpInt (a b : ℤ) : Ordering :=
  if a < b then .lt else if b < a then .gt else .eq

/-- Three-way comparison on characters by code point, as Python compares. -/
def cmpChar (a b : Char) : Ordering := cmpNat a.toNat b.toNat

/-- Lexicographic three-way comparison on character lists (Python string
comparison: code-point lexicographic, a strict prefix is smaller). -/
def cmpChars : List Char → List Char → Ordering
  | [], [] => .eq
  | [], _ :: _ => .lt
  | _ :: _, [] => .gt
  | a :: as, b :: bs => (cmpChar a b).then (cmpChars as bs)

/-- Three-way comparison on strings, as Python compares strings. -/
def cmpStr (a b : String) : Ordering := cmpChars a.data b.data

/-- Lawfulness of a three-way comparator: antisymmetric under swap,
transitive on `lt`, and `eq` results are congruences. -/
structure IsCmp {α : Type _} (cmp : α → α → Ordering) : Prop where
  symm : ∀ a b, cmp a b = (cmp b a).swap
  lt_trans : ∀ {a b c}, cmp a b = .lt → cmp b c = .lt → cmp a c = .lt
  eq_congr : ∀ {a b} (c : α), cmp a b = .eq → cmp a c = cmp b c

theorem cmpNat_eq_iff {a b : ℕ} : cmpNat a b = .eq ↔ a = b := by
  unfold cmpNat; split <;> rename_i h₁
  · simp; omega
  · split <;> rename_i h₂ <;> simp <;> omega

theorem cmpNat_lt_iff {a b : ℕ} : cmpNat a b = .lt ↔ a < b := by
  unfold cmpNat; split <;> rename_i h₁
  · simp [h₁]
  · split <;> simp <;> omega

theorem cmpNat_gt_iff {a b : ℕ} : cmpNat a b = .gt ↔ b < a := by
  unfold cmpNat; split <;> rename_i h₁
  · simp; omega
  · split <;> rename_i h₂ <;> simp <;> omega

theorem isCmp_cmpNat : IsCmp cmpNat := by
  refine ⟨?_, ?_, ?_⟩
  · intro a b
    rcases lt_trichotomy a b with h | h | h
    · rw [cmpNat_lt_iff.mpr h, cmpNat_gt_iff.mpr h]; rfl
    · rw [cmpNat_eq_iff.mpr h, cmpNat_eq_iff.mpr h.symm]; rfl
    · rw [cmpNat_gt_iff.mpr h, cmpNat_lt_iff.mpr h]; rfl
  · intro a b c h₁ h₂
    exact cmpNat_lt_iff.mpr (lt_trans (cmpNat_lt_iff.mp h₁) (cmpNat_lt_iff.mp h₂))
  · intro a b c h
    rw [cmpNat_eq_iff.mp h]

theorem cmpInt_eq_iff {a b : ℤ} : cmpInt a b = .eq ↔ a = b := by
  unfold cmpInt; split <;> rename_i h₁
  · simp; omega
  · split <;> rename_i h₂ <;> simp <;> omega

theorem cmpInt_lt_iff {a b : ℤ} : cmpInt a b = .lt ↔ a < b := by
  unfold cmpInt; split <;> rename_i h₁
  · simp [h₁]
  · split <;> simp <;> omega

theorem cmpInt_gt_iff {a b : ℤ} : cmpInt a b = .gt ↔ b < a := by
  unfold cmpInt; split <;> rename_i h₁
  · simp; omega
  · split <;> rename_i h₂ <;> simp <;> omega

theorem isCmp_cmpInt : IsCmp cmpInt := by
  refine ⟨?_, ?_, ?_⟩
  · intro a b
    rcases lt_trichotomy a b with h | h | h
    · rw [cmpInt_lt_iff.mpr h, cmpInt_gt_iff.mpr h]; rfl
    · rw [cmpInt_eq_iff.mpr h, cmpInt_eq_iff.mpr h.symm]; rfl
    · rw [cmpInt_gt_iff.mpr h, cmpInt_lt_iff.mpr h]; rfl
  · intro a b c h₁ h₂
    exact cmpInt_lt_iff.mpr (lt_trans (cmpInt_lt_iff.mp h₁) (cmpInt_lt_iff.mp h₂))
  · intro a b c h
    rw [cmpInt_eq_iff.mp h]

theorem cmpChar_eq_iff {a b : Char} : cmpChar a b = .eq ↔ a = b := by
  unfold cmpChar
  rw [cmpNat_eq_iff]
  constructor
  · intro h
    exact Char.ext (UInt32.ext h)
  · intro h; rw [h]

theorem isCmp_cmpChar : IsCmp cmpChar := by
  refine ⟨?_, ?_, ?_⟩
  · intro a b; exact isCmp_cmpNat.symm a.toNat b.toNat
  · intro a b c h₁ h₂; exact isCmp_cmpNat.lt_trans h₁ h₂
  · intro a b c h
    rw [cmpChar_eq_iff.mp h]

theorem ordering_then_eq_lt {x y : Ordering} :
    x.then y = .lt ↔ x = .lt ∨ (x = .eq ∧ y = .lt) := by
  cases x <;> simp [Ordering.then]

theorem ordering_then_eq_eq {x y : Ordering} :
    x.then y = .eq ↔ x = .eq ∧ y = .eq := by
  cases x <;> simp [Ordering.then]

theorem ordering_then_eq_gt {x y : Ordering} :
    x.then y = .gt ↔ x = .gt ∨ (x = .eq ∧ y = .gt) := by
  cases x <;> simp [Ordering.then]

theorem ordering_then_swap {x y : Ordering} :
    (x.then y).swap = x.swap.then y.swap := by
  cases x <;> cases y <;> rfl

theorem cmpChars_eq_iff : ∀ {as bs : List Char}, cmpChars as bs = .eq ↔ as = bs
  | [], [] => by simp [cmpChars]
  | [], _ :: _ => by simp [cmpChars]
  | _ :: _, [] => by simp [cmpChars]
  | a :: as, b :: bs => by
    simp only [cmpChars, ordering_then_eq_eq, cmpChar_eq_iff, cmpChars_eq_iff,
      List.cons.injEq]

theorem cmpChars_symm : ∀ (as bs : List Char), cmpChars as bs = (cmpChars bs as).swap
  | [], [] => rfl
  | [], _ :: _ => rfl
  | _ :: _, [] => rfl
  | a :: as, b :: bs => by
    simp only [cmpChars, cmpChars_symm as bs, isCmp_cmpChar.symm a b, ordering_then_swap]

theorem IsCmp.eq_congr_r {α : Type _} {cmp : α → α → Ordering} (h : IsCmp cmp)
    {a b : α} (x : α) (hab : cmp a b = .eq) : cmp x a = cmp x b := by
  calc cmp x a = (cmp a x).swap := by rw [h.symm x a]
    _ = (cmp b x).swap := by rw [h.eq_congr x hab]
    _ = cmp x b := (h.symm x b).symm

theorem cmpChars_lt_trans :
    ∀ {as bs cs : List Char}, cmpChars as bs = .lt → cmpChars bs cs = .lt →
      cmpChars as cs = .lt
  | [], [], _ => fun h₁ _ => absurd h₁ (by simp [cmpChars])
  | [], _ :: _, [] => fun _ h₂ => absurd h₂ (by simp [cmpChars])
  | [], _ :: _, _ :: _ => fun _ _ => rfl
  | _ :: _, [], _ => fun h₁ _ => absurd h₁ (by simp [cmpChars])
  | _ :: _, _ :: _, [] => fun _ h₂ => absurd h₂ (by simp [cmpChars])
  | a :: as, b :: bs, c :: cs => fun h₁ h₂ => by
    rw [cmpChars, ordering_then_eq_lt] at h₁ h₂ ⊢
    rcases h₁ with h₁ | ⟨h₁e, h₁r⟩
    · rcases h₂ with h₂ | ⟨h₂e, h₂r⟩
      · exact Or.inl (isCmp_cmpChar.lt_trans h₁ h₂)
      · exact Or.inl (by rw [← isCmp_cmpChar.eq_congr_r a h₂e]; exact h₁)
    · rcases h₂ with h₂ | ⟨h₂e, h₂r⟩
      · exact Or.inl (by rw [isCmp_cmpChar.eq_congr c h₁e]; exact h₂)
      · exact Or.inr ⟨by rw [isCmp_cmpChar.eq_congr c h₁e]; exact h₂e,
          cmpChars_lt_trans h₁r h₂r⟩

theorem isCmp_cmpChars : IsCmp cmpChars := by
  refine ⟨cmpChars_symm, fun h₁ h₂ => cmpChars_lt_trans h₁ h₂, ?_⟩
  intro a b c h
  rw [cmpChars_eq_iff.mp h]

theorem isCmp_cmpStr : IsCmp cmpStr := by
  refine ⟨?_, ?_, ?_⟩
  · intro a b; exact isCmp_cmpChars.symm a.data b.data
  · intro a b c h₁ h₂; exact isCmp_cmpChars.lt_trans h₁ h₂
  · intro a b c h; exact isCmp_cmpChars.eq_congr c.data h

/-- Comparator lifted through a key function. -/
theorem IsCmp.comap {α β : Type _} {cmp : α → α → Ordering} (h : IsCmp cmp)
    (f : β → α) : IsCmp (fun x y => cmp (f x) (f y)) := by
  refine ⟨fun a b => h.symm (f a) (f b), fun h₁ h₂ => h.lt_trans h₁ h₂, ?_⟩
  intro a b c hab
  exact h.eq_congr (f c) hab

/-- Lexicographic composition of two lawful comparators is lawful. -/
theorem IsCmp.thenCmp {α : Type _} {c₁ c₂ : α → α → Ordering}
    (h₁ : IsCmp c₁) (h₂ : IsCmp c₂) :
    IsCmp (fun a b => (c₁ a b).then (c₂ a b)) := by
  refine ⟨?_, ?_, ?_⟩
  · intro a b
    rw [h₁.symm a b, h₂.symm a b, ordering_then_swap]
  · intro a b c hab hbc
    simp only [ordering_then_eq_lt] at hab hbc ⊢
    rcases hab with hab | ⟨habe, habr⟩
    · rcases hbc with hbc | ⟨hbce, hbcr⟩
      · exact Or.inl (h₁.lt_trans hab hbc)
      · exact Or.inl (by rw [← h₁.eq_congr_r a hbce]; exact hab)
    · rcases hbc with hbc | ⟨hbce, hbcr⟩
      · exact Or.inl (by rw [h₁.eq_congr c habe]; exact hbc)
      · exact Or.inr ⟨by rw [h₁.eq_congr c habe]; exact hbce, h₂.lt_trans habr hbcr⟩
  · intro a b c hab
    simp only [ordering_then_eq_eq] at hab
    rw [h₁.eq_congr c hab.1, h₂.eq_congr c hab.2]

/-- Non-strict order induced by a comparator (what a Python key sort realises). -/
def cmpLE {α : Type _} (cmp : α → α → Ordering) (a b : α) : Prop := cmp a b ≠ .gt

instance {α : Type _} (cmp : α → α → Ordering) : DecidableRel (cmpLE cmp) :=
  fun a b => inferInstanceAs (Decidable (cmp a b ≠ .gt))

theorem IsCmp.le_total {α : Type _} {cmp : α → α → Ordering} (h : IsCmp cmp)
    (a b : α) : cmpLE cmp a b ∨ cmpLE cmp b a := by
  unfold cmpLE
  cases hab : cmp a b
  · exact Or.inl (by simp)
  · exact Or.inl (by simp)
  · refine Or.inr ?_
    rw [h.symm b a, hab]
    simp [Ordering.swap]

theorem IsCmp.le_trans {α : Type _} {cmp : α → α → Ordering} (h : IsCmp cmp)
    {a b c : α} (hab : cmpLE cmp a b) (hbc : cmpLE cmp b c) : cmpLE cmp a c := by
  unfold cmpLE at *
  cases h₁ : cmp a b
  · cases h₂ : cmp b c
    · simp [h.lt_trans h₁ h₂]
    · rw [← h.eq_congr_r a h₂, h₁]
      simp
    · exact absurd h₂ hbc
  · rw [h.eq_congr c h₁]
    exact hbc
  · exact absurd h₁ hab

/-- Python `list.sort(key=...)` with the key order realised by `cmp`
(insertion sort; both are stable sorts). -/
def sortByCmp {α : Type _} (cmp : α → α → Ordering) (l : List α) : List α :=
  l.insertionSort (cmpLE cmp)

theorem sortByCmp_pairwise {α : Type _} {cmp : α → α → Ordering} (h : IsCmp cmp)
    (l : List α) : (sortByCmp cmp l).Pairwise (cmpLE cmp) :=
  @List.sorted_insertionSort α (cmpLE cmp) _ ⟨h.le_total⟩
    ⟨fun _ _ _ => h.le_trans⟩ l

theorem sortByCmp_perm {α : Type _} (cmp : α → α → Ordering) (l : List α) :
    List.Perm (sortByCmp cmp l) l :=
  List.perm_insertionSort _ l

theorem mem_sortByCmp {α : Type _} {cmp : α → α → Ordering} {l : List α} {x : α} :
    x ∈ sortByCmp cmp l ↔ x ∈ l :=
  List.mem_insertionSort _

/-! ### Python string primitives, modelled on the character list -/

/-- ASCII uppercase of one character (Python `str.upper` on ASCII data). -/
def pyCharUpper (c : Char) : Char :=
  if c = 'a' then 'A' else if c = 'b' then 'B' else if c = 'c' then 'C'
  else if c = 'd' then 'D' else if c = 'e' then 'E' else if c = 'f' then 'F'
  else if c = 'g' then 'G' else if c = 'h' then 'H' else if c = 'i' then 'I'
  else if c = 'j' then 'J' else if c = 'k' then 'K' else if c = 'l' then 'L'
  else if c = 'm' then 'M' else if c = 'n' then 'N' else if c = 'o' then 'O'
  else if c = 'p' then 'P' else if c = 'q' then 'Q' else if c = 'r' then 'R'
  else if c = 's' then 'S' else if c = 't' then 'T' else if c = 'u' then 'U'
  else if c = 'v' then 'V' else if c = 'w' then 'W' else if c = 'x' then 'X'
  else if c = 'y' then 'Y' else if c = 'z' then 'Z' else c

/-- ASCII lowercase of one character (Python `str.lower` on ASCII data). -/
def pyCharLower (c : Char) : Char :=
  if c = 'A' then 'a' else if c = 'B' then 'b' else if c = 'C' then 'c'
  else if c = 'D' then 'd' else if c = 'E' then 'e' else if c = 'F' then 'f'
  else if c = 'G' then 'g' else if c = 'H' then 'h' else if c = 'I' then 'i'
  else if c = 'J' then 'j' else if c = 'K' then 'k' else if c = 'L' then 'l'
  else if c = 'M' then 'm' else if c = 'N' then 'n' else if c = 'O' then 'o'
  else if c = 'P' then 'p' else if c = 'Q' then 'q' else if c = 'R' then 'r'
  else if c = 'S' then 's' else if c = 'T' then 't' else if c = 'U' then 'u'
  else if c = 'V' then 'v' else if c = 'W' then 'w' else if c = 'X' then 'x'
  else if c = 'Y' then 'y' else if c = 'Z' then 'z' else c

/-- Python `str.upper()` (ASCII). -/
def pyUpper (s : String) : String := String.mk (s.data.map pyCharUpper)

/-- Python `str.lower()` (ASCII). -/
def pyLower (s : String) : String := String.mk (s.data.map pyCharLower)

/-- Whitespace recognised by Python `str.strip()` (space, tab, LF, CR, VT, FF). -/
def isPySpace (c : Char) : Bool :=
  decide (c.toNat = 32 ∨ c.toNat = 9 ∨ c.toNat = 10 ∨ c.toNat = 13 ∨
    c.toNat = 11 ∨ c.toNat = 12)

/-- Python `str.strip()`. -/
def pyStrip (s : String) : String :=
  String.mk (((s.data.dropWhile isPySpace).reverse.dropWhile isPySpace).reverse)

/-- Python `"0" stripping from the right` as in `s.rstrip(chars)`: drop every
trailing character satisfying `p`. -/
def pyRstrip (s : String) (p : Char → Bool) : String :=
  String.mk ((s.data.reverse.dropWhile p).reverse)

/-! ### Trade Sizing Engine (`scripts/trade_builder.py`, `build_trades_for_run`)

Database reads (targets, last reconciliation, snapshot, ledger views, prices)
are supplied through `TBInputs`; the run's rows of the
`ledger_trades_intended` store are threaded through (`prevIntended` in,
`storeAfter` out) so the replace-all write can be stated.  Diagnostic detail
values (`position_source`, `cash_base`, `portfolio_value_base`,
`effective_min_notional_base`) are surfaced as result fields, mirroring the
`detail` dict of the source. -/

/-- Policy inputs read by the trade builder (with the source's defaults:
`min_notional_base` 25, `min_notional_pct` 0.01, `max_slippage_bps` 50,
`order_type` "MKT"). -/
structure TBPolicy where
  minNotionalAbs : ℚ
  minNotionalPct : ℚ
  maxSlippageBps : ℤ
  orderType : String
deriving DecidableEq

/-- Row of `portfolio_targets` for the run, ordered by `internal_symbol`
as the source's SQL reads them.  `targetValue` is `none` when the
`target_value_base` column is null (empty coalesced text). -/
structure TargetRow where
  sym : String
  weight : ℚ
  targetValue : Option ℚ
  asofDate : String
deriving DecidableEq

/-- The in-memory `TradeIntent` dataclass of the source. -/
structure TradeIntent where
  internalSymbol : String
  side : String
  units : ℤ
  notionalValueBase : ℚ
  referencePrice : ℚ
deriving DecidableEq

/-- Row of the `intended_trades` output (JSON artifact and
`ledger_trades_intended` insert).  `units` is absent (`none`) when the
computed unit count is not positive. -/
structure IntentRow where
  sequence : ℕ
  internalSymbol : String
  side : String
  notionalValueBase : ℚ
  orderType : String
  limitPrice : Option ℚ
  referencePrice : ℚ
  maxSlippageBps : ℤ
  rationale : String
  units : Option ℤ
deriving DecidableEq

/-- External facts read by one `build_trades_for_run` invocation.
`lastRec` is the newest `reconciliation_results` row as the pair of its
`passed::text` and `snapshot_id` texts; `snapRow` is the matching
`reconciliation_snapshots` row (cash, snapshot date) when present;
`prices` are the parsed `market_prices_eod` closes for the as-of date. -/
structure TBInputs where
  dryrunTrades : Bool
  targets : List TargetRow
  lastRec : Option (String × String)
  snapRow : Option (ℚ × String)
  snapPositions : List (String × ℚ)
  ledgerCash : ℚ
  ledgerPositions : List (String × ℚ)
  prices : List (String × ℚ)
  prevIntended : List IntentRow
deriving DecidableEq

/-- Result of one invocation: the `TradeBuilderResult` fields, the diagnostic
detail values, the emitted intent lists, the persisted rows, and the state of
the run's `ledger_trades_intended` rows after the call. -/
structure TBRun where
  ok : Bool
  reason : String
  positionSource : String
  cashBase : ℚ
  portfolioValue : ℚ
  effMinNotional : ℚ
  sells : List TradeIntent
  buys : List TradeIntent
  intendedTrades : List IntentRow
  storeAfter : List IntentRow
deriving DecidableEq

/-- Blocked result: a non-OK reason, zero intents, and no store write
(the early returns of the source happen before the delete-then-insert). -/
def tbEarly (reason : String) (inp : TBInputs) : TBRun :=
  { ok := false, reason := reason, positionSource := "", cashBase := 0,
    portfolioValue := 0, effMinNotional := 0, sells := [], buys := [],
    intendedTrades := [], storeAfter := inp.prevIntended }

/-- Lookup in an association list read from SQL (unique keys by primary key). -/
def lookupQ (l : List (String × ℚ)) (k : String) : Option ℚ :=
  (l.find? (fun p => decide (p.1 = k))).map (·.2)

/-- The `_floor_units` helper: zero for a non-positive price, else the floor
of the (clamped non-negative) notional divided by the price. -/
def floorUnits (notional price : ℚ) : ℤ :=
  if price ≤ 0 then 0 else ⌊max 0 notional / price⌋

/-- Effective minimum notional: `min_notional_abs` unless both the portfolio
value and the percentage are positive, in which case the minimum of the
absolute floor and `portfolio_value * min_notional_pct`. -/
def effectiveMinNotional (minAbs minPct pv : ℚ) : ℚ :=
  if 0 < pv ∧ 0 < minPct then min minAbs (pv * minPct) else minAbs

/-- Position source resolution: the latest reconciliation result is used when
it passed (`passed::text = "t"`) and names a snapshot; otherwise the ledger
views.  When the named snapshot row is absent the cash stays `0` (as in the
source, where `cash_base` keeps its initialiser). -/
def resolvePositions (inp : TBInputs) : String × ℚ × List (String × ℚ) :=
  match inp.lastRec with
  | some (passedS, snapshotId) =>
    if passedS = "t" ∧ snapshotId ≠ "" then
      ("reconciliation_snapshot",
        ((inp.snapRow.map (·.1)).getD 0, inp.snapPositions))
    else ("ledger_views", (inp.ledgerCash, inp.ledgerPositions))
  | none => ("ledger_views", (inp.ledgerCash, inp.ledgerPositions))

/-- Per-symbol pricing context of the two sizing passes. -/
structure SizingCtx where
  effMin : ℚ
  px : String → ℚ
  posUnits : String → ℚ
  curVal : String → ℚ
  tgtVal : String → ℚ

/-- SELL decision for one symbol: when the current value exceeds the target
value, sell the floor of the value gap over the price, capped by the floored
held units; emit only when at least one unit is sold and the notional meets
the effective minimum. -/
def sellIntentFor (c : SizingCtx) (s : String) : Option TradeIntent :=
  let px := c.px s
  let delta := c.tgtVal s - c.curVal s
  if delta < 0 then
    let curUnits := c.posUnits s
    let sellableUnits : ℤ := ⌊max 0 curUnits⌋
    let units := min sellableUnits (floorUnits |delta| px)
    let notional := (units : ℚ) * px
    if 0 < units ∧ c.effMin ≤ notional then
      some { internalSymbol := s, side := "SELL", units := units,
             notionalValueBase := notional, referencePrice := px }
    else none
  else none

/-- SELL pass over the sorted symbols: emitted intents and the cash after
sells (start cash plus every emitted notional). -/
def sellPass (c : SizingCtx) : List String → ℚ → List TradeIntent × ℚ
  | [], cash => ([], cash)
  | s :: rest, cash =>
    match sellIntentFor c s with
    | some t =>
      let r := sellPass c rest (cash + t.notionalValueBase)
      (t :: r.1, r.2)
    | none => sellPass c rest cash

/-- BUY decision for one symbol given the remaining cash: spend the smaller of
the value gap and the remaining cash; the notional is the floored-units value
when at least one unit fits, else the raw (clamped) spend; emit only when the
notional meets the effective minimum. -/
def buyIntentFor (c : SizingCtx) (s : String) (cashAvailable : ℚ) :
    Option TradeIntent :=
  let px := c.px s
  let delta := c.tgtVal s - c.curVal s
  if 0 < delta then
    let notionalWanted := min delta cashAvailable
    let units := floorUnits notionalWanted px
    let notional := if 0 < units then (units : ℚ) * px else max 0 notionalWanted
    if c.effMin ≤ notional then
      some { internalSymbol := s, side := "BUY", units := units,
             notionalValueBase := notional, referencePrice := px }
    else none
  else none

/-- BUY pass over the sorted symbols, threading the remaining cash. -/
def buyPass (c : SizingCtx) : List String → ℚ → List TradeIntent × ℚ
  | [], cash => ([], cash)
  | s :: rest, cash =>
    match buyIntentFor c s cash with
    | some t =>
      let r := buyPass c rest (cash - t.notionalValueBase)
      (t :: r.1, r.2)
    | none => buyPass c rest cash

/-- Round-half-to-even to an integer, the semantics of Python `round`
(applied here to the exact rational modelling the float). -/
def roundHalfEven (x : ℚ) : ℤ :=
  let n := ⌊x⌋
  let f := x - n
  if f < 1/2 then n
  else if 1/2 < f then n + 1
  else if n % 2 = 0 then n else n + 1

/-- Python `round(x, 8)`. -/
def round8 (x : ℚ) : ℚ := (roundHalfEven (x * 100000000) : ℚ) / 100000000

/-- One serialized intended-trade row (`sequence` assigned by enumeration,
`units` present only when positive, numeric fields rounded to 8 places). -/
def mkIntentRow (pol : TBPolicy) (i : ℕ) (t : TradeIntent) : IntentRow :=
  { sequence := i, internalSymbol := t.internalSymbol, side := t.side,
    notionalValueBase := round8 t.notionalValueBase,
    orderType := pol.orderType, limitPrice := none,
    referencePrice := round8 t.referencePrice,
    maxSlippageBps := pol.maxSlippageBps,
    rationale := "Deterministic rebalance vs target weights.",
    units := if 0 < t.units then some t.units else none }

/-- Serialized rows for the final intent list, sequences dense from `i`. -/
def mkRows (pol : TBPolicy) : ℕ → List TradeIntent → List IntentRow
  | _, [] => []
  | i, t :: ts => mkIntentRow pol i t :: mkRows pol (i + 1) ts

/-- Target-value map: the explicit `target_value_base` when present, else the
target weight times the portfolio value; symbols outside the target set get 0
(the `dict.get(sym, 0.0)` of the source). -/
def targetValueFor (targets : List TargetRow) (pv : ℚ) (s : String) : ℚ :=
  match targets.find? (fun t => decide (t.sym = s)) with
  | some t => t.targetValue.getD (t.weight * pv)
  | none => 0

/-- Final (all preconditions passed) stage of the builder: both passes, the
per-side symbol sort, sequence assignment, and the replace-all store write. -/
def tbFinish (pol : TBPolicy) (src : String) (cashBase pv : ℚ) (c : SizingCtx)
    (syms : List String) : TBRun :=
  let sp := sellPass c syms cashBase
  let bp := buyPass c syms sp.2
  let intents := sortByCmp (fun a b => cmpStr a.internalSymbol b.internalSymbol) sp.1
    ++ sortByCmp (fun a b => cmpStr a.internalSymbol b.internalSymbol) bp.1
  let rows := mkRows pol 1 intents
  { ok := true, reason := if rows.isEmpty then "NO_REBALANCE" else "OK",
    positionSource := src, cashBase := cashBase, portfolioValue := pv,
    effMinNotional := c.effMin, sells := sp.1, buys := bp.1,
    intendedTrades := rows, storeAfter := rows }

/-- The `build_trades_for_run` entry point.  The run id only namespaces the
artifact paths and store rows and is omitted; `asofDate` is the resolved
as-of date argument. -/
def buildTradesForRun (pol : TBPolicy) (asofDate : String) (inp : TBInputs) :
    TBRun :=
  if ¬ inp.dryrunTrades then tbEarly "DRYRUN_TRADES_DISABLED" inp
  else if inp.targets = [] then tbEarly "TARGETS_MISSING" inp
  else if inp.targets.any (fun t => decide (t.asofDate ≠ asofDate)) then
    tbEarly "TARGETS_ASOF_MISMATCH" inp
  else
    let rp := resolvePositions inp
    let src := rp.1
    let cashBase := rp.2.1
    let positions := rp.2.2
    let tsyms := inp.targets.map (·.sym)
    let priceSyms := sortByCmp cmpStr (tsyms ++ positions.map (·.1)).dedup
    if priceSyms = [] then
      { tbEarly "NO_SYMBOLS" inp with positionSource := src, cashBase := cashBase }
    else
      let prices := inp.prices.filter (fun p => decide (p.1 ∈ priceSyms))
      let missing := priceSyms.filter (fun s => (lookupQ prices s).isNone)
      if missing ≠ [] then
        { tbEarly "PRICES_MISSING" inp with positionSource := src, cashBase := cashBase }
      else
        let px := fun s => (lookupQ prices s).getD 0
        let pv := cashBase + (positions.map (fun p => p.2 * px p.1)).sum
        let effMin := effectiveMinNotional pol.minNotionalAbs pol.minNotionalPct pv
        let c : SizingCtx :=
          { effMin := effMin, px := px,
            posUnits := fun s => (lookupQ positions s).getD 0,
            curVal := fun s => (lookupQ positions s).getD 0 * px s,
            tgtVal := targetValueFor inp.targets pv }
        tbFinish pol src cashBase pv c priceSyms

/-! ### Structural lemmas about the sizing engine -/

theorem floorUnits_pos {n p : ℚ} (h : 0 < floorUnits n p) : 0 < p := by
  unfold floorUnits at h
  split at h
  · exact absurd h (by omega)
  · linarith [not_le.mp (by assumption : ¬ p ≤ 0)]

theorem floorUnits_nonneg (n p : ℚ) : 0 ≤ floorUnits n p := by
  unfold floorUnits
  split
  · omega
  · rename_i hp
    have hp' : 0 < p := not_le.mp hp
    have : (0:ℚ) ≤ max 0 n / p := div_nonneg (le_max_left 0 n) hp'.le
    exact Int.le_floor.mpr (by exact_mod_cast this)

theorem floorUnits_mul_le {n p : ℚ} (hp : 0 < p) (hn : 0 ≤ n) :
    (floorUnits n p : ℚ) * p ≤ n := by
  unfold floorUnits
  rw [if_neg (not_le.mpr hp)]
  have h1 : ((⌊max 0 n / p⌋ : ℚ)) ≤ max 0 n / p := Int.floor_le _
  calc ((⌊max 0 n / p⌋ : ℚ)) * p ≤ (max 0 n / p) * p :=
        mul_le_mul_of_nonneg_right h1 hp.le
    _ = max 0 n := div_mul_cancel₀ _ (ne_of_gt hp)
    _ = n := max_eq_right hn

theorem sellIntentFor_some {c : SizingCtx} {s : String} {t : TradeIntent}
    (h : sellIntentFor c s = some t) :
    t.side = "SELL" ∧ t.internalSymbol = s ∧ 0 < t.units ∧
      0 < t.notionalValueBase ∧ c.effMin ≤ t.notionalValueBase := by
  simp only [sellIntentFor] at h
  split at h
  · split at h
    · rename_i hcond
      obtain ⟨hu, hmin⟩ := hcond
      cases h
      refine ⟨rfl, rfl, hu, ?_, hmin⟩
      have hpx : 0 < c.px s := by
        refine floorUnits_pos (n := |c.tgtVal s - c.curVal s|) ?_
        calc (0:ℤ) < min (⌊max 0 (c.posUnits s)⌋) (floorUnits |c.tgtVal s - c.curVal s| (c.px s)) := hu
          _ ≤ _ := min_le_right _ _
      exact mul_pos (by exact_mod_cast hu) hpx
    · exact absurd h (by simp)
  · exact absurd h (by simp)

theorem buyIntentFor_some {c : SizingCtx} {s : String} {cash : ℚ} {t : TradeIntent}
    (h : buyIntentFor c s cash = some t) (hc : 0 ≤ cash) :
    t.side = "BUY" ∧ t.internalSymbol = s ∧ 0 ≤ t.notionalValueBase ∧
      t.notionalValueBase ≤ cash := by
  simp only [buyIntentFor] at h
  split at h
  · rename_i hdelta
    by_cases hu : 0 < floorUnits (min (c.tgtVal s - c.curVal s) cash) (c.px s)
    · rw [if_pos hu] at h
      split at h
      · cases h
        have hpx : 0 < c.px s := floorUnits_pos hu
        have hw0 : 0 ≤ min (c.tgtVal s - c.curVal s) cash := le_min hdelta.le hc
        refine ⟨rfl, rfl, mul_nonneg (by exact_mod_cast hu.le) hpx.le, ?_⟩
        calc (floorUnits (min (c.tgtVal s - c.curVal s) cash) (c.px s) : ℚ) * c.px s
            ≤ min (c.tgtVal s - c.curVal s) cash := floorUnits_mul_le hpx hw0
          _ ≤ cash := min_le_right _ _
      · exact absurd h (by simp)
    · rw [if_neg hu] at h
      split at h
      · cases h
        exact ⟨rfl, rfl, le_max_left _ _, max_le hc (min_le_right _ _)⟩
      · exact absurd h (by simp)
  · exact absurd h (by simp)

theorem buyIntentFor_some_side {c : SizingCtx} {s : String} {cash : ℚ}
    {t : TradeIntent} (h : buyIntentFor c s cash = some t) : t.side = "BUY" := by
  simp only [buyIntentFor] at h
  split at h
  · by_cases hu : 0 < floorUnits (min (c.tgtVal s - c.curVal s) cash) (c.px s)
    · rw [if_pos hu] at h
      split at h
      · cases h; rfl
      · exact absurd h (by simp)
    · rw [if_neg hu] at h
      split at h
      · cases h; rfl
      · exact absurd h (by simp)
  · exact absurd h (by simp)

theorem sellPass_cash (c : SizingCtx) :
    ∀ (syms : List String) (cash : ℚ),
      (sellPass c syms cash).2 =
        cash + ((sellPass c syms cash).1.map (·.notionalValueBase)).sum
  | [], cash => by simp [sellPass]
  | s :: rest, cash => by
    unfold sellPass
    cases h : sellIntentFor c s with
    | none => simpa using sellPass_cash c rest cash
    | some t =>
      simp only [List.map_cons, List.sum_cons]
      rw [sellPass_cash c rest (cash + t.notionalValueBase)]
      ring

theorem sellPass_mem (c : SizingCtx) :
    ∀ {syms : List String} {cash : ℚ} {t : TradeIntent},
      t ∈ (sellPass c syms cash).1 → ∃ s, sellIntentFor c s = some t := by
  intro syms
  induction syms with
  | nil => intro cash t ht; simp [sellPass] at ht
  | cons s rest ih =>
    intro cash t ht
    unfold sellPass at ht
    cases h : sellIntentFor c s with
    | none => rw [h] at ht; exact ih ht
    | some u =>
      rw [h] at ht
      rcases List.mem_cons.mp ht with rfl | ht'
      · exact ⟨s, h⟩
      · exact ih ht'

theorem buyPass_spend (c : SizingCtx) :
    ∀ (syms : List String) (cash : ℚ), 0 ≤ cash →
      0 ≤ (buyPass c syms cash).2 ∧
        ((buyPass c syms cash).1.map (·.notionalValueBase)).sum =
          cash - (buyPass c syms cash).2
  | [], cash => fun hc => by simp [buyPass, hc]
  | s :: rest, cash => fun hc => by
    unfold buyPass
    cases h : buyIntentFor c s cash with
    | none => simpa using buyPass_spend c rest cash hc
    | some t =>
      obtain ⟨-, -, h0, hle⟩ := buyIntentFor_some h hc
      have hc' : 0 ≤ cash - t.notionalValueBase := by linarith
      obtain ⟨ih1, ih2⟩ := buyPass_spend c rest (cash - t.notionalValueBase) hc'
      refine ⟨ih1, ?_⟩
      simp only [List.map_cons, List.sum_cons]
      rw [ih2]
      ring

theorem buyPass_mem (c : SizingCtx) :
    ∀ {syms : List String} {cash : ℚ} {t : TradeIntent},
      t ∈ (buyPass c syms cash).1 →
        ∃ s cash', buyIntentFor c s cash' = some t := by
  intro syms
  induction syms with
  | nil => intro cash t ht; simp [buyPass] at ht
  | cons s rest ih =>
    intro cash t ht
    unfold buyPass at ht
    cases h : buyIntentFor c s cash with
    | none => rw [h] at ht; exact ih ht
    | some u =>
      rw [h] at ht
      rcases List.mem_cons.mp ht with rfl | ht'
      · exact ⟨s, cash, h⟩
      · exact ih ht'

theorem mkRows_length (pol : TBPolicy) :
    ∀ (i : ℕ) (ts : List TradeIntent), (mkRows pol i ts).length = ts.length
  | _, [] => rfl
  | i, _ :: ts => by simp [mkRows, mkRows_length pol (i + 1) ts]

theorem mkRows_map_seq (pol : TBPolicy) :
    ∀ (i : ℕ) (ts : List TradeIntent),
      (mkRows pol i ts).map (·.sequence) = List.range' i ts.length
  | _, [] => rfl
  | i, t :: ts => by
    simp only [mkRows, List.map_cons, List.length_cons, List.range'_succ,
      mkRows_map_seq pol (i + 1) ts]
    rfl

theorem mkRows_append (pol : TBPolicy) :
    ∀ (i : ℕ) (A B : List TradeIntent),
      mkRows pol i (A ++ B) = mkRows pol i A ++ mkRows pol (i + A.length) B
  | i, [], B => by simp [mkRows]
  | i, a :: A, B => by
    show mkIntentRow pol i a :: mkRows pol (i + 1) (A ++ B) =
      mkIntentRow pol i a ::
        (mkRows pol (i + 1) A ++ mkRows pol (i + (A.length + 1)) B)
    rw [mkRows_append pol (i + 1) A B]
    have harith : i + 1 + A.length = i + (A.length + 1) := by omega
    rw [harith]

theorem mkRows_mem (pol : TBPolicy) :
    ∀ {i : ℕ} {ts : List TradeIntent} {r : IntentRow}, r ∈ mkRows pol i ts →
      ∃ k t, t ∈ ts ∧ r = mkIntentRow pol k t ∧ i ≤ k ∧ k < i + ts.length := by
  intro i ts
  induction ts generalizing i with
  | nil => intro r hr; simp [mkRows] at hr
  | cons t ts ih =>
    intro r hr
    rcases List.mem_cons.mp hr with rfl | hr'
    · exact ⟨i, t, List.mem_cons_self _ _, rfl, le_refl i, by simp⟩
    · obtain ⟨k, u, hu, hrk, hk1, hk2⟩ := ih hr'
      exact ⟨k, u, List.mem_cons_of_mem _ hu, hrk, by omega, by simpa using by omega⟩

theorem mkRows_pairwise (pol : TBPolicy) {R : TradeIntent → TradeIntent → Prop}
    {Q : IntentRow → IntentRow → Prop}
    (hQ : ∀ (i j : ℕ) (a b : TradeIntent), R a b →
      Q (mkIntentRow pol i a) (mkIntentRow pol j b)) :
    ∀ {ts : List TradeIntent} (i : ℕ), ts.Pairwise R →
      (mkRows pol i ts).Pairwise Q := by
  intro ts
  induction ts with
  | nil => intro i _; exact List.Pairwise.nil
  | cons t ts ih =>
    intro i hp
    rcases List.pairwise_cons.mp hp with ⟨hhead, htail⟩
    refine List.pairwise_cons.mpr ⟨?_, ih (i + 1) htail⟩
    intro r hr
    obtain ⟨k, u, hu, rfl, -, -⟩ := mkRows_mem pol hr
    exact hQ i k t u (hhead u hu)

/-- Case split on one builder invocation: either it is blocked (non-OK
reason, empty intent list, store untouched) or it reached the final stage. -/
theorem tb_cases (pol : TBPolicy) (asofDate : String) (inp : TBInputs) :
    ((buildTradesForRun pol asofDate inp).ok = false ∧
      (buildTradesForRun pol asofDate inp).storeAfter = inp.prevIntended ∧
      (buildTradesForRun pol asofDate inp).intendedTrades = []) ∨
    (∃ src cashBase pv c syms,
      buildTradesForRun pol asofDate inp = tbFinish pol src cashBase pv c syms) := by
  simp only [buildTradesForRun]
  split_ifs <;>
    first
      | exact Or.inl ⟨rfl, rfl, rfl⟩
      | exact Or.inr ⟨_, _, _, _, _, rfl⟩

/-- Ordering facts about the serialized rows of a SELL block followed by a
BUY block: SELL sequences precede BUY sequences, sequences are dense from 1,
and rows of equal side are ordered by instrument id. -/
theorem rows_ordering (pol : TBPolicy) (S B : List TradeIntent)
    (hS : ∀ t ∈ S, t.side = "SELL") (hB : ∀ t ∈ B, t.side = "BUY")
    (hSp : S.Pairwise (cmpLE (fun a b => cmpStr a.internalSymbol b.internalSymbol)))
    (hBp : B.Pairwise (cmpLE (fun a b => cmpStr a.internalSymbol b.internalSymbol))) :
    (∀ s ∈ mkRows pol 1 (S ++ B), s.side = "SELL" →
      ∀ b ∈ mkRows pol 1 (S ++ B), b.side = "BUY" → s.sequence < b.sequence) ∧
    ((mkRows pol 1 (S ++ B)).map (·.sequence) =
      List.range' 1 (mkRows pol 1 (S ++ B)).length) ∧
    (mkRows pol 1 (S ++ B)).Pairwise
      (fun a b => a.side = b.side →
        cmpLE cmpStr a.internalSymbol b.internalSymbol) := by
  have happ := mkRows_append pol 1 S B
  refine ⟨?_, ?_, ?_⟩
  · intro s hsmem hsside b hbmem hbside
    rw [happ] at hsmem hbmem
    rcases List.mem_append.mp hsmem with hsA | hsB
    · rcases List.mem_append.mp hbmem with hbA | hbB
      · obtain ⟨k, t, ht, rfl, -, -⟩ := mkRows_mem pol hbA
        rw [show (mkIntentRow pol k t).side = t.side from rfl, hS t ht] at hbside
        exact absurd hbside (by decide)
      · obtain ⟨k, t, ht, rfl, hk1, hk2⟩ := mkRows_mem pol hsA
        obtain ⟨j, u, hu, rfl, hj1, hj2⟩ := mkRows_mem pol hbB
        show k < j
        omega
    · obtain ⟨k, t, ht, rfl, -, -⟩ := mkRows_mem pol hsB
      rw [show (mkIntentRow pol k t).side = t.side from rfl, hB t ht] at hsside
      exact absurd hsside (by decide)
  · rw [mkRows_map_seq pol 1 (S ++ B), mkRows_length pol 1 (S ++ B)]
  · rw [happ]
    refine List.pairwise_append.mpr ⟨?_, ?_, ?_⟩
    · refine mkRows_pairwise pol ?_ 1 hSp
      intro i j a b hr _
      exact hr
    · refine mkRows_pairwise pol ?_ (1 + S.length) hBp
      intro i j a b hr _
      exact hr
    · intro ra hra rb hrb
      obtain ⟨k, t, ht, rfl, -, -⟩ := mkRows_mem pol hra
      obtain ⟨j, u, hu, rfl, -, -⟩ := mkRows_mem pol hrb
      intro hside
      rw [show (mkIntentRow pol k t).side = t.side from rfl, hS t ht,
        show (mkIntentRow pol j u).side = u.side from rfl, hB u hu] at hside
      exact absurd hside (by decide)

/-- C3: whenever the sizing engine emits at least one SELL and at least one
BUY intent, every SELL row's sequence number is strictly below every BUY
row's sequence number, the sequence numbers are exactly 1..N with no gaps,
and rows of the same side are ordered by instrument id ascending
(code-point order, `cmpLE cmpStr`). -/
theorem c3_intent_ordering (pol : TBPolicy) (asofDate : String) (inp : TBInputs)
    (hs : ∃ r ∈ (buildTradesForRun pol asofDate inp).intendedTrades,
      r.side = "SELL")
    (hb : ∃ r ∈ (buildTradesForRun pol asofDate inp).intendedTrades,
      r.side = "BUY") :
    (∀ s ∈ (buildTradesForRun pol asofDate inp).intendedTrades,
      s.side = "SELL" →
        ∀ b ∈ (buildTradesForRun pol asofDate inp).intendedTrades,
          b.side = "BUY" → s.sequence < b.sequence) ∧
    ((buildTradesForRun pol asofDate inp).intendedTrades.map (·.sequence) =
      List.range' 1 (buildTradesForRun pol asofDate inp).intendedTrades.length) ∧
    (buildTradesForRun pol asofDate inp).intendedTrades.Pairwise
      (fun a b => a.side = b.side →
        cmpLE cmpStr a.internalSymbol b.internalSymbol) := by
  rcases tb_cases pol asofDate inp with ⟨-, -, hnil⟩ | ⟨src, cash, pv, c, syms, heq⟩
  · rw [hnil] at hs
    simp at hs
  · rw [heq]
    have hrows : (tbFinish pol src cash pv c syms).intendedTrades =
        mkRows pol 1
          (sortByCmp (fun a b => cmpStr a.internalSymbol b.internalSymbol)
              (sellPass c syms cash).1 ++
            sortByCmp (fun a b => cmpStr a.internalSymbol b.internalSymbol)
              (buyPass c syms (sellPass c syms cash).2).1) := rfl
    rw [hrows]
    refine rows_ordering pol _ _ ?_ ?_ ?_ ?_
    · intro t ht
      obtain ⟨s, hsome⟩ := sellPass_mem c (mem_sortByCmp.mp ht)
      exact (sellIntentFor_some hsome).1
    · intro t ht
      obtain ⟨s, cash', hsome⟩ := buyPass_mem c (mem_sortByCmp.mp ht)
      exact (buyIntentFor_some_side hsome)
    · exact sortByCmp_pairwise (isCmp_cmpStr.comap TradeIntent.internalSymbol) _
    · exact sortByCmp_pairwise (isCmp_cmpStr.comap TradeIntent.internalSymbol) _

/-- C2 (amended): for every sizing-engine invocation that returns an OK
outcome from a non-negative starting cash balance, the sum of the notionals
of all emitted BUY intents is at most the starting cash plus the sum of the
notionals of all emitted SELL intents. -/
theorem c2_cash_conservation (pol : TBPolicy) (asofDate : String)
    (inp : TBInputs)
    (hok : (buildTradesForRun pol asofDate inp).ok = true)
    (hcash : 0 ≤ (buildTradesForRun pol asofDate inp).cashBase) :
    ((buildTradesForRun pol asofDate inp).buys.map (·.notionalValueBase)).sum ≤
      (buildTradesForRun pol asofDate inp).cashBase +
        ((buildTradesForRun pol asofDate inp).sells.map
          (·.notionalValueBase)).sum := by
  rcases tb_cases pol asofDate inp with ⟨hf, -, -⟩ | ⟨src, cash, pv, c, syms, heq⟩
  · rw [hok] at hf; cases hf
  · rw [heq] at hcash ⊢
    have hcB : (tbFinish pol src cash pv c syms).cashBase = cash := rfl
    have hsells : (tbFinish pol src cash pv c syms).sells =
      (sellPass c syms cash).1 := rfl
    have hbuys : (tbFinish pol src cash pv c syms).buys =
      (buyPass c syms (sellPass c syms cash).2).1 := rfl
    rw [hcB] at hcash
    rw [hcB, hsells, hbuys]
    have h1 := sellPass_cash c syms cash
    have hsell0 : 0 ≤ ((sellPass c syms cash).1.map (·.notionalValueBase)).sum := by
      apply List.sum_nonneg
      intro x hx
      obtain ⟨t, ht, rfl⟩ := List.mem_map.mp hx
      obtain ⟨s, hs⟩ := sellPass_mem c ht
      have hprops := sellIntentFor_some hs
      linarith [hprops.2.2.2.1]
    have hca : 0 ≤ (sellPass c syms cash).2 := by rw [h1]; linarith
    obtain ⟨hfin, hsum⟩ := buyPass_spend c syms _ hca
    linarith [hsum, h1, hfin]

/-- Policy for the C3 witness run. -/
def c3Policy : TBPolicy :=
  { minNotionalAbs := 25, minNotionalPct := 1/100, maxSlippageBps := 50,
    orderType := "MKT" }

/-- Input state for the C3 witness run: liquidate AAA entirely and buy BBB. -/
def c3Inputs : TBInputs :=
  { dryrunTrades := true,
    targets := [{ sym := "AAA", weight := 0, targetValue := some 0,
                  asofDate := "2025-01-06" },
                { sym := "BBB", weight := 0, targetValue := some 150,
                  asofDate := "2025-01-06" }],
    lastRec := none, snapRow := none, snapPositions := [],
    ledgerCash := 100, ledgerPositions := [("AAA", 10)],
    prices := [("AAA", 10), ("BBB", 5)], prevIntended := [] }

set_option maxHeartbeats 3200000 in
/-- Evaluated result of the C3 witness run: one SELL of 10 AAA (notional
100) then one BUY of 30 BBB (notional 150). -/
theorem c3_run_eval :
    (buildTradesForRun c3Policy "2025-01-06" c3Inputs).intendedTrades =
      [{ sequence := 1, internalSymbol := "AAA", side := "SELL",
         notionalValueBase := 100, orderType := "MKT", limitPrice := none,
         referencePrice := 10, maxSlippageBps := 50,
         rationale := "Deterministic rebalance vs target weights.",
         units := some 10 },
       { sequence := 2, internalSymbol := "BBB", side := "BUY",
         notionalValueBase := 150, orderType := "MKT", limitPrice := none,
         referencePrice := 5, maxSlippageBps := 50,
         rationale := "Deterministic rebalance vs target weights.",
         units := some 30 }] := by
  have h₁ : ((["AAA", "BBB"] : List String) ++ ["AAA"]).dedup = ["BBB", "AAA"] := by
    decide
  have h₂ : sortByCmp cmpStr ["BBB", "AAA"] = ["AAA", "BBB"] := by decide
  have h₃ : (decide (("AAA" : String) ∈ ["AAA", "BBB"])) = true := by decide
  have h₄ : (decide (("BBB" : String) ∈ ["AAA", "BBB"])) = true := by decide
  have h₅ : cmpStr "BBB" "AAA" = Ordering.gt := by decide
  have h₆ : cmpStr "AAA" "BBB" = Ordering.lt := by decide
  have h₇ : (decide (("AAA" : String) = "BBB")) = false := by decide
  have h₈ : (decide (("BBB" : String) = "AAA")) = false := by decide
  have h₉ : (decide (("AAA" : String) = "AAA")) = true := by decide
  have h₁₀ : (decide (("BBB" : String) = "BBB")) = true := by decide
  have ht : ¬ (([{ sym := "AAA", weight := 0, targetValue := some 0,
                   asofDate := "2025-01-06" },
                 { sym := "BBB", weight := 0, targetValue := some 150,
                   asofDate := "2025-01-06" }] : List TargetRow) = []) := by
    simp
  norm_num [buildTradesForRun, c3Policy, c3Inputs, resolvePositions,
    h₁, h₂, h₃, h₄, h₅, h₆, h₇, h₈, h₉, h₁₀, ht, sortByCmp,
    List.insertionSort, List.orderedInsert, lookupQ, List.find?, tbFinish,
    sellPass, buyPass, sellIntentFor, buyIntentFor, targetValueFor,
    effectiveMinNotional, floorUnits, mkRows, mkIntentRow, round8,
    roundHalfEven, cmpLE]
  rw [if_neg (show ¬ ((["AAA", "BBB"] : List String) = []) by simp)]

/-- C3 witness: the evaluated run has a SELL and a BUY; the SELL precedes
the BUY, sequences are exactly 1..2, and each side is symbol-ordered. -/
theorem c3_intent_ordering_witness :
    (∃ r ∈ (buildTradesForRun c3Policy "2025-01-06" c3Inputs).intendedTrades,
      r.side = "SELL") ∧
    (∃ r ∈ (buildTradesForRun c3Policy "2025-01-06" c3Inputs).intendedTrades,
      r.side = "BUY") ∧
    ((∀ s ∈ (buildTradesForRun c3Policy "2025-01-06" c3Inputs).intendedTrades,
      s.side = "SELL" →
        ∀ b ∈ (buildTradesForRun c3Policy "2025-01-06" c3Inputs).intendedTrades,
          b.side = "BUY" → s.sequence < b.sequence) ∧
    ((buildTradesForRun c3Policy "2025-01-06" c3Inputs).intendedTrades.map
        (·.sequence) =
      List.range' 1
        (buildTradesForRun c3Policy "2025-01-06" c3Inputs).intendedTrades.length) ∧
    (buildTradesForRun c3Policy "2025-01-06" c3Inputs).intendedTrades.Pairwise
      (fun a b => a.side = b.side →
        cmpLE cmpStr a.internalSymbol b.internalSymbol)) := by
  have hsell : ∃ r ∈ (buildTradesForRun c3Policy "2025-01-06"
      c3Inputs).intendedTrades, r.side = "SELL" := by
    rw [c3_run_eval]
    exact ⟨_, List.mem_cons_self _ _, rfl⟩
  have hbuy : ∃ r ∈ (buildTradesForRun c3Policy "2025-01-06"
      c3Inputs).intendedTrades, r.side = "BUY" := by
    rw [c3_run_eval]
    exact ⟨_, List.mem_cons_of_mem _ (List.mem_cons_self _ _), rfl⟩
  exact ⟨hsell, hbuy, c3_intent_ordering c3Policy "2025-01-06" c3Inputs hsell hbuy⟩

/-- Policy for the C2 witness run. -/
def c2WitnessPolicy : TBPolicy :=
  { minNotionalAbs := 25, minNotionalPct := 1/100, maxSlippageBps := 50,
    orderType := "MKT" }

/-- Input state for the C2 witness run: cash 100, one BUY target of 60. -/
def c2WitnessInputs : TBInputs :=
  { dryrunTrades := true,
    targets := [{ sym := "BBB", weight := 0, targetValue := some 60,
                  asofDate := "2025-01-06" }],
    lastRec := none, snapRow := none, snapPositions := [],
    ledgerCash := 100, ledgerPositions := [], prices := [("BBB", 5)],
    prevIntended := [] }

/-- Evaluated result of the C2 witness run. -/
theorem c2_run_eval :
    buildTradesForRun c2WitnessPolicy "2025-01-06" c2WitnessInputs =
      { ok := true, reason := "OK", positionSource := "ledger_views",
        cashBase := 100, portfolioValue := 100, effMinNotional := 1,
        sells := [],
        buys := [{ internalSymbol := "BBB", side := "BUY", units := 12,
                   notionalValueBase := 60, referencePrice := 5 }],
        intendedTrades :=
          [{ sequence := 1, internalSymbol := "BBB", side := "BUY",
             notionalValueBase := 60, orderType := "MKT", limitPrice := none,
             referencePrice := 5, maxSlippageBps := 50,
             rationale := "Deterministic rebalance vs target weights.",
             units := some 12 }],
        storeAfter :=
          [{ sequence := 1, internalSymbol := "BBB", side := "BUY",
             notionalValueBase := 60, orderType := "MKT", limitPrice := none,
             referencePrice := 5, maxSlippageBps := 50,
             rationale := "Deterministic rebalance vs target weights.",
             units := some 12 }] } := by
  norm_num [buildTradesForRun, c2WitnessPolicy, c2WitnessInputs,
    resolvePositions, sortByCmp, List.insertionSort, List.orderedInsert,
    List.dedup, lookupQ, List.find?, tbFinish, sellPass, buyPass,
    sellIntentFor, buyIntentFor, targetValueFor, effectiveMinNotional,
    floorUnits, mkRows, mkIntentRow, round8, roundHalfEven, cmpLE]

/-- C2 witness: the evaluated run is OK with non-negative starting cash, and
its BUY notionals (60) stay within cash plus SELL notionals (100). -/
theorem c2_cash_conservation_witness :
    (buildTradesForRun c2WitnessPolicy "2025-01-06" c2WitnessInputs).ok = true ∧
    (0 ≤ (buildTradesForRun c2WitnessPolicy "2025-01-06" c2WitnessInputs).cashBase) ∧
    (((buildTradesForRun c2WitnessPolicy "2025-01-06" c2WitnessInputs).buys.map
        (·.notionalValueBase)).sum ≤
      (buildTradesForRun c2WitnessPolicy "2025-01-06" c2WitnessInputs).cashBase +
        ((buildTradesForRun c2WitnessPolicy "2025-01-06" c2WitnessInputs).sells.map
          (·.notionalValueBase)).sum) := by
  have hok : (buildTradesForRun c2WitnessPolicy "2025-01-06"
      c2WitnessInputs).ok = true := by rw [c2_run_eval]
  have hcash : 0 ≤ (buildTradesForRun c2WitnessPolicy "2025-01-06"
      c2WitnessInputs).cashBase := by rw [c2_run_eval]; norm_num
  exact ⟨hok, hcash,
    c2_cash_conservation c2WitnessPolicy "2025-01-06" c2WitnessInputs hok hcash⟩

/-- Concrete run for the C2 counterexample: negative ledger cash, no
holdings, a single weighted target priced for the as-of date. -/
def c2Policy : TBPolicy :=
  { minNotionalAbs := 25, minNotionalPct := 1/100, maxSlippageBps := 50,
    orderType := "MKT" }

/-- Input state for the C2 counterexample. -/
def c2Inputs : TBInputs :=
  { dryrunTrades := true,
    targets := [{ sym := "AAA", weight := 1/2, targetValue := none,
                  asofDate := "2025-01-06" }],
    lastRec := none, snapRow := none, snapPositions := [],
    ledgerCash := -100, ledgerPositions := [], prices := [("AAA", 10)],
    prevIntended := [] }

/-- C2 counterexample: a run with ledger cash -100 and one target returns OK
(reason NO_REBALANCE, zero intents), yet the claimed inequality
`sum BUY <= cash_start + sum SELL` fails, since `0 <= -100` is false.  The
claim as stated, quantified over every OK invocation, is therefore false. -/
theorem c2_counterexample :
    (buildTradesForRun c2Policy "2025-01-06" c2Inputs).ok = true ∧
    ¬ (((buildTradesForRun c2Policy "2025-01-06" c2Inputs).buys.map
          (·.notionalValueBase)).sum ≤
        (buildTradesForRun c2Policy "2025-01-06" c2Inputs).cashBase +
          ((buildTradesForRun c2Policy "2025-01-06" c2Inputs).sells.map
            (·.notionalValueBase)).sum) := by
  have hev : buildTradesForRun c2Policy "2025-01-06" c2Inputs =
      { ok := true, reason := "NO_REBALANCE", positionSource := "ledger_views",
        cashBase := -100, portfolioValue := -100, effMinNotional := 25,
        sells := [], buys := [], intendedTrades := [], storeAfter := [] } := by
    norm_num [buildTradesForRun, c2Policy, c2Inputs, resolvePositions,
      sortByCmp, List.insertionSort, List.orderedInsert, List.dedup,
      lookupQ, List.find?, tbFinish, sellPass, buyPass, sellIntentFor,
      buyIntentFor, targetValueFor, effectiveMinNotional, floorUnits,
      mkRows, cmpLE]
  rw [hev]
  norm_num

/-- C10: whenever the sizing engine returns a non-OK outcome, the
intended-trades store is untouched: the rows previously persisted for the
run are returned unchanged (the replace-all delete-then-insert happens only
on the OK path). -/
theorem c10_frame (pol : TBPolicy) (asofDate : String) (inp : TBInputs)
    (h : (buildTradesForRun pol asofDate inp).ok = false) :
    (buildTradesForRun pol asofDate inp).storeAfter = inp.prevIntended := by
  rcases tb_cases pol asofDate inp with ⟨-, hstore, -⟩ | ⟨src, cash, pv, c, syms, heq⟩
  · exact hstore
  · rw [heq] at h
    simp [tbFinish] at h

/-- Previously persisted store row used by the C10 witness run. -/
def c10PrevRow : IntentRow :=
  { sequence := 1, internalSymbol := "OLD", side := "SELL",
    notionalValueBase := 10, orderType := "MKT", limitPrice := none,
    referencePrice := 10, maxSlippageBps := 50,
    rationale := "Deterministic rebalance vs target weights.",
    units := some 1 }

/-- Policy for the C10 witness run. -/
def c10Policy : TBPolicy :=
  { minNotionalAbs := 25, minNotionalPct := 1/100, maxSlippageBps := 50,
    orderType := "MKT" }

/-- Input state for the C10 witness run: sizing disabled, a previously
persisted intended trade in the store. -/
def c10Inputs : TBInputs :=
  { dryrunTrades := false, targets := [], lastRec := none, snapRow := none,
    snapPositions := [], ledgerCash := 0, ledgerPositions := [], prices := [],
    prevIntended := [c10PrevRow] }

/-- C10 witness: a disabled-sizing invocation is non-OK and leaves the
previously persisted intended trade in place. -/
theorem c10_frame_witness :
    (buildTradesForRun c10Policy "2025-01-06" c10Inputs).ok = false ∧
    (buildTradesForRun c10Policy "2025-01-06" c10Inputs).storeAfter =
      c10Inputs.prevIntended :=
  ⟨by rfl, c10_frame c10Policy "2025-01-06" c10Inputs (by rfl)⟩

/-- C7 (amended): the effective minimum notional used by the sizing engine
equals `min(min_notional_absolute, portfolio_value * min_notional_fraction)`
whenever the portfolio value and the fraction are both positive, and equals
`min_notional_absolute` otherwise. -/
theorem c7_effective_min_notional (minAbs minPct pv : ℚ) :
    (0 < pv → 0 < minPct →
      effectiveMinNotional minAbs minPct pv = min minAbs (pv * minPct)) ∧
    (¬ (0 < pv ∧ 0 < minPct) →
      effectiveMinNotional minAbs minPct pv = minAbs) := by
  constructor
  · intro h1 h2
    simp [effectiveMinNotional, h1, h2]
  · intro h
    simp [effectiveMinNotional, h]

/-- C7 witness: the spec scenario, portfolio value 1000, absolute floor 25,
fraction 0.01 gives an effective minimum of 10. -/
theorem c7_effective_min_notional_witness :
    effectiveMinNotional 25 (1/100) 1000 = 10 := by
  have h := (c7_effective_min_notional 25 (1/100) 1000).1 (by norm_num) (by norm_num)
  rw [h]
  norm_num

/-- Policy for the C7 counterexample run. -/
def c7Policy : TBPolicy :=
  { minNotionalAbs := 25, minNotionalPct := 1/100, maxSlippageBps := 50,
    orderType := "MKT" }

/-- Input state for the C7 counterexample run (negative portfolio value). -/
def c7Inputs : TBInputs :=
  { dryrunTrades := true,
    targets := [{ sym := "AAA", weight := 1/2, targetValue := none,
                  asofDate := "2025-01-06" }],
    lastRec := none, snapRow := none, snapPositions := [],
    ledgerCash := -100, ledgerPositions := [], prices := [("AAA", 10)],
    prevIntended := [] }

/-- C7 counterexample: a run with portfolio value -100 uses effective
minimum 25 (`min_notional_absolute`), while the claimed unconditional formula
`min(25, -100 * 0.01)` gives -1, so the claim as stated is false. -/
theorem c7_counterexample :
    (buildTradesForRun c7Policy "2025-01-06" c7Inputs).portfolioValue = -100 ∧
    (buildTradesForRun c7Policy "2025-01-06" c7Inputs).effMinNotional = 25 ∧
    min c7Policy.minNotionalAbs
      ((buildTradesForRun c7Policy "2025-01-06" c7Inputs).portfolioValue *
        c7Policy.minNotionalPct) = -1 ∧
    (buildTradesForRun c7Policy "2025-01-06" c7Inputs).effMinNotional ≠
      min c7Policy.minNotionalAbs
        ((buildTradesForRun c7Policy "2025-01-06" c7Inputs).portfolioValue *
          c7Policy.minNotionalPct) := by
  have hev : buildTradesForRun c7Policy "2025-01-06" c7Inputs =
      { ok := true, reason := "NO_REBALANCE", positionSource := "ledger_views",
        cashBase := -100, portfolioValue := -100, effMinNotional := 25,
        sells := [], buys := [], intendedTrades := [], storeAfter := [] } := by
    norm_num [buildTradesForRun, c7Policy, c7Inputs, resolvePositions,
      sortByCmp, List.insertionSort, List.orderedInsert, List.dedup,
      lookupQ, List.find?, tbFinish, sellPass, buyPass, sellIntentFor,
      buyIntentFor, targetValueFor, effectiveMinNotional, floorUnits,
      mkRows, cmpLE]
  rw [hev]
  norm_num [c7Policy]

/-! ### RiskGate Evaluator (`scripts/riskguard_run.py`, `main`)

External facts (SQL reads, environment flags, the trade-builder call) are
supplied through `GateFacts`; the outcome carries the persisted risk checks,
the ordered blocking-reason codes, the approval flag and the decision type.
Reason detail strings are omitted: the claims concern only the stable codes
and the passed flags. -/

/-- Summary of one `trade_builder.build_trades_for_run` call as seen by the
gate: `ok` flag and intended-trade count; the `error` case models the
`except Exception` path around the call. -/
structure GateFacts where
  asof : String
  dqPassText : String
  reconcileRequired : Bool
  maxAgeDays : ℕ
  windowRec : Option (String × String × String)
  latestTradeTicketText : String
  ticketIntendedCount : ℕ
  ticketFillsCount : ℕ
  unverifiedEnabledCount : ℕ
  cashMovementsCount : ℕ
  ledgerFillsCount : ℕ
  dryrunTrades : Bool
  tb : Except String (Bool × ℕ)

/-- The data-quality check: latest `passed::text` lowercases to a truthy
token. -/
def dqOk (g : GateFacts) : Bool :=
  decide (pyLower g.dqPassText ∈ ["t", "true", "1", "yes"])

/-- The reconciliation check: vacuously true when not required by policy;
otherwise requires an as-of date and a passing reconciliation within the
staleness window, strict same-day when the allowed age is zero. -/
def reconcileOk (g : GateFacts) : Bool :=
  if ¬ g.reconcileRequired then true
  else if g.asof = "" then false
  else
    match g.windowRec with
    | none => false
    | some (_, snapDate, _) =>
      if 0 < g.maxAgeDays then true else decide (pyStrip snapDate = g.asof)

/-- The confirmations check: fails when the latest TRADE ticket has intended
trades but fewer recorded fills. -/
def confirmOk (g : GateFacts) : Bool :=
  if pyStrip g.latestTradeTicketText = "" then true
  else ¬ (0 < g.ticketIntendedCount ∧
    g.ticketFillsCount < g.ticketIntendedCount)

/-- The universe check: no enabled instrument lacks the verification marker. -/
def universeOk (g : GateFacts) : Bool := decide (g.unverifiedEnabledCount = 0)

/-- The ledger-readiness check: some cash movement or fill exists. -/
def ledgerOk (g : GateFacts) : Bool :=
  decide (0 < g.cashMovementsCount + g.ledgerFillsCount)

/-- The trade-builder stage: disabled unless `DRYRUN_TRADES` is set; a
non-OK result or an exception fails the check with one reason code;
returns (check passed, reason codes, intended count). -/
def tbEval (g : GateFacts) : Bool × List String × ℕ :=
  if ¬ g.dryrunTrades then (false, (["DRYRUN_TRADES_DISABLED"], 0))
  else
    match g.tb with
    | .ok r => (r.1, ((if r.1 then [] else ["TRADE_BUILDER_BLOCKED"]), r.2))
    | .error _ => (false, (["TRADE_BUILDER_FAILED"], 0))

/-- The NO_REBALANCE reason: appended when the builder ran clean in dry-run
mode but emitted zero intents. -/
def noRebalanceReasons (g : GateFacts) : List String :=
  if g.dryrunTrades ∧ (tbEval g).1 = true ∧ (tbEval g).2.2 = 0 then
    ["NO_REBALANCE"]
  else []

/-- The six persisted risk checks, in the order the source appends them. -/
def gateChecks (g : GateFacts) : List (String × Bool) :=
  [("data_quality", dqOk g), ("reconciliation", reconcileOk g),
   ("confirmations", confirmOk g), ("universe_verified", universeOk g),
   ("ledger_ready", ledgerOk g), ("trade_builder", (tbEval g).1)]

/-- The ordered blocking-reason codes, as the source appends them. -/
def gateReasons (g : GateFacts) : List String :=
  (if dqOk g then [] else ["DATA_QUALITY_FAIL"]) ++
  (if reconcileOk g then [] else ["RECONCILIATION_REQUIRED"]) ++
  (if confirmOk g then [] else ["CONFIRMATION_MISSING"]) ++
  (if universeOk g then [] else ["UNIVERSE_NOT_VERIFIED"]) ++
  (if ledgerOk g then [] else ["LEDGER_EMPTY"]) ++
  (tbEval g).2.1 ++ noRebalanceReasons g

/-- `approved = len(reasons) == 0 and all(passed)`. -/
def gateApproved (g : GateFacts) : Bool :=
  (gateReasons g).isEmpty && (gateChecks g).all (·.2)

/-- Run-level decision outcome. -/
structure GateOutcome where
  riskChecks : List (String × Bool)
  reasons : List String
  approved : Bool
  decisionType : String
deriving DecidableEq

/-- The gate evaluation of `riskguard_run.main`: the six checks, the ordered
reasons, the approval conjunction and the TRADE/NO_TRADE decision type. -/
def riskguardDecide (g : GateFacts) : GateOutcome :=
  { riskChecks := gateChecks g, reasons := gateReasons g,
    approved := gateApproved g,
    decisionType := if gateApproved g then "TRADE" else "NO_TRADE" }

theorem gateChecks_all_iff (g : GateFacts) :
    (gateChecks g).all (·.2) = true ↔
      dqOk g = true ∧ reconcileOk g = true ∧ confirmOk g = true ∧
        universeOk g = true ∧ ledgerOk g = true ∧ (tbEval g).1 = true := by
  simp [gateChecks, List.all, and_assoc]

theorem tbEval_reasons_nil (g : GateFacts) :
    (tbEval g).2.1 = [] ↔ (tbEval g).1 = true := by
  unfold tbEval
  by_cases hd : g.dryrunTrades = true
  · rw [if_neg (by simp [hd])]
    cases htb : g.tb with
    | ok r =>
      cases hr : r.1 <;> simp [hr]
    | error e => simp
  · rw [if_pos (by simp [hd])]
    simp

theorem noRebalanceReasons_cases (g : GateFacts) :
    noRebalanceReasons g = [] ∨ noRebalanceReasons g = ["NO_REBALANCE"] := by
  unfold noRebalanceReasons
  split_ifs
  · exact Or.inr rfl
  · exact Or.inl rfl

theorem ite_reason_nil {c : Prop} [Decidable c] {r : String}
    (h : (if c then ([] : List String) else [r]) = []) : c := by
  by_cases hc : c
  · exact hc
  · rw [if_neg hc] at h
    simp at h

theorem gateReasons_eq_nil {g : GateFacts} (h : gateReasons g = []) :
    dqOk g = true ∧ reconcileOk g = true ∧ confirmOk g = true ∧
      universeOk g = true ∧ ledgerOk g = true ∧ (tbEval g).2.1 = [] ∧
      noRebalanceReasons g = [] := by
  unfold gateReasons at h
  rw [List.append_eq_nil, List.append_eq_nil, List.append_eq_nil,
    List.append_eq_nil, List.append_eq_nil, List.append_eq_nil] at h
  exact ⟨ite_reason_nil h.1.1.1.1.1.1, ite_reason_nil h.1.1.1.1.1.2,
    ite_reason_nil h.1.1.1.1.2, ite_reason_nil h.1.1.1.2,
    ite_reason_nil h.1.1.2, h.1.2, h.2⟩

/-- C1 (amended): (1) approved with decision TRADE exactly when all risk
checks passed and the blocking-reason list is empty; (2) any failing check
yields approved = false, decision NO_TRADE and at least one reason; (3) when
all six checks pass and no NO_REBALANCE reason was recorded (the dry-run
sizing produced at least one intent), the run is approved with decision
TRADE.  The unconditional form of (3) in the claim is refuted by
`c1_gate_counterexample`: all six checks can pass while a NO_REBALANCE
reason blocks the run. -/
theorem c1_gate_conjunction (g : GateFacts) :
    (((riskguardDecide g).approved = true ∧
        (riskguardDecide g).decisionType = "TRADE") ↔
      ((riskguardDecide g).riskChecks.all (·.2) = true ∧
        (riskguardDecide g).reasons = [])) ∧
    (∀ c ∈ (riskguardDecide g).riskChecks, c.2 = false →
      (riskguardDecide g).approved = false ∧
        (riskguardDecide g).decisionType = "NO_TRADE" ∧
        (riskguardDecide g).reasons ≠ []) ∧
    (((riskguardDecide g).riskChecks.all (·.2) = true ∧
        "NO_REBALANCE" ∉ (riskguardDecide g).reasons) →
      (riskguardDecide g).approved = true ∧
        (riskguardDecide g).decisionType = "TRADE") := by
  refine ⟨?_, ?_, ?_⟩
  · constructor
    · intro hpair
      have ha : ((gateReasons g).isEmpty && (gateChecks g).all (·.2)) = true :=
        hpair.1
      rw [Bool.and_eq_true] at ha
      exact ⟨ha.2, List.isEmpty_iff.mp ha.1⟩
    · intro ⟨hall, hnil⟩
      have hnil' : gateReasons g = [] := hnil
      have hall' : (gateChecks g).all (·.2) = true := hall
      have happ : gateApproved g = true := by
        simp [gateApproved, hnil', hall']
      exact ⟨happ, by simp only [riskguardDecide, happ, if_pos]⟩
  · intro c hc hcf
    have hc' : c ∈ gateChecks g := hc
    have hall : ¬ ((gateChecks g).all (·.2) = true) := by
      intro hall
      rw [List.all_eq_true] at hall
      have hx := hall c hc'
      rw [hcf] at hx
      cases hx
    have hallf : (gateChecks g).all (·.2) = false := Bool.eq_false_iff.mpr hall
    have happ : gateApproved g = false := by
      simp [gateApproved, hallf]
    refine ⟨happ, by simp only [riskguardDecide, happ, Bool.false_eq_true,
      if_neg, if_false], ?_⟩
    show gateReasons g ≠ []
    intro hnil
    obtain ⟨n1, n2, n3, n4, n5, n6, n7⟩ := gateReasons_eq_nil hnil
    simp only [gateChecks, List.mem_cons, List.not_mem_nil, or_false] at hc'
    rcases hc' with h | h | h | h | h | h
    all_goals (rw [h] at hcf; dsimp only at hcf)
    · rw [hcf] at n1; cases n1
    · rw [hcf] at n2; cases n2
    · rw [hcf] at n3; cases n3
    · rw [hcf] at n4; cases n4
    · rw [hcf] at n5; cases n5
    · rw [tbEval_reasons_nil g] at n6
      rw [hcf] at n6
      cases n6
  · intro ⟨hall, hnr⟩
    simp only [riskguardDecide] at hall hnr ⊢
    obtain ⟨h1, h2, h3, h4, h5, h6⟩ := (gateChecks_all_iff g).mp hall
    have hreasons : gateReasons g = noRebalanceReasons g := by
      simp [gateReasons, h1, h2, h3, h4, h5, (tbEval_reasons_nil g).mpr h6]
    have hnrnil : noRebalanceReasons g = [] := by
      rcases noRebalanceReasons_cases g with hn | hn
      · exact hn
      · rw [hreasons, hn] at hnr
        simp at hnr
    have hnil : gateReasons g = [] := by rw [hreasons, hnrnil]
    have happ : gateApproved g = true := by simp [gateApproved, hnil, hall]
    simp [happ]

/-- Gate facts for the C1 counterexample: every external fact healthy, the
dry-run sizing OK with zero intents. -/
def c1Facts : GateFacts :=
  { asof := "2025-01-06", dqPassText := "t", reconcileRequired := false,
    maxAgeDays := 0, windowRec := none, latestTradeTicketText := "",
    ticketIntendedCount := 0, ticketFillsCount := 0,
    unverifiedEnabledCount := 0, cashMovementsCount := 1,
    ledgerFillsCount := 0, dryrunTrades := true, tb := .ok (true, 0) }

/-- C1 counterexample: all six risk checks pass, yet the run is blocked
(approved = false, NO_TRADE) because the clean dry-run sizing emitted zero
intents and recorded the NO_REBALANCE blocking reason.  This refutes the
claim's final conjunct (all six checks true implies approved and TRADE). -/
theorem c1_gate_counterexample :
    (riskguardDecide c1Facts).riskChecks.all (·.2) = true ∧
    (riskguardDecide c1Facts).riskChecks =
      [("data_quality", true), ("reconciliation", true),
       ("confirmations", true), ("universe_verified", true),
       ("ledger_ready", true), ("trade_builder", true)] ∧
    (riskguardDecide c1Facts).approved = false ∧
    (riskguardDecide c1Facts).decisionType = "NO_TRADE" ∧
    (riskguardDecide c1Facts).reasons = ["NO_REBALANCE"] := by
  decide

/-- Gate facts for the C1 witness: as the counterexample but the sizing
emitted three intents. -/
def c1WitnessFacts : GateFacts :=
  { asof := "2025-01-06", dqPassText := "t", reconcileRequired := false,
    maxAgeDays := 0, windowRec := none, latestTradeTicketText := "",
    ticketIntendedCount := 0, ticketFillsCount := 0,
    unverifiedEnabledCount := 0, cashMovementsCount := 1,
    ledgerFillsCount := 0, dryrunTrades := true, tb := .ok (true, 3) }

/-- C1 witness: with all checks passing and a non-empty intent list the run
is approved with decision TRADE. -/
theorem c1_gate_conjunction_witness :
    ((riskguardDecide c1WitnessFacts).riskChecks.all (·.2) = true ∧
      "NO_REBALANCE" ∉ (riskguardDecide c1WitnessFacts).reasons) ∧
    ((riskguardDecide c1WitnessFacts).approved = true ∧
      (riskguardDecide c1WitnessFacts).decisionType = "TRADE") :=
  ⟨⟨by decide, by decide⟩,
    (c1_gate_conjunction c1WitnessFacts).2.2 ⟨by decide, by decide⟩⟩

/-! ### Signal-to-Weight Allocator (`scripts/riskguard_run.py`, lines 330-354) -/

/-- Ranked signal row for the run (the SQL orders by rank, nulls last, then
symbol; the list is supplied in that order). -/
structure SignalRow where
  symbol : String
  score : ℚ
  rank : Option ℤ
deriving DecidableEq

/-- The allocator: take the top `max(1, min(max_positions, 9999))` signals,
give each the weight `min(max_position_weight, budget / selected_count)`
with `budget = max(0, 1 - min_cash_buffer)`; an empty selection yields an
empty target list. -/
def allocTargets (maxPositions : ℤ) (maxW cashBuffer : ℚ)
    (signals : List SignalRow) : List (String × ℚ) :=
  let budget := max 0 (1 - cashBuffer)
  let n := max 1 (min maxPositions 9999)
  let top := signals.take n.toNat
  if top.isEmpty then []
  else top.map (fun s => (s.symbol, min maxW (budget / (top.length : ℚ))))

/-- C8: for a policy within the spec ranges (1 <= max_positions <= 50,
0 <= min_cash_buffer <= 0.1), the allocator selects the first
`min(max_positions, N)` ranked signals, assigns each the equal weight
`min(max_position_weight, (1 - min_cash_buffer)/selected_count)`, and maps
an empty signal list to an empty target set. -/
theorem c8_allocator (mp : ℤ) (mw cb : ℚ) (signals : List SignalRow)
    (h1 : 1 ≤ mp) (h2 : mp ≤ 50) (h3 : 0 ≤ cb) (h4 : cb ≤ 1/10) :
    ((allocTargets mp mw cb signals).map Prod.fst =
      (signals.take (min mp.toNat signals.length)).map (·.symbol)) ∧
    (∀ t ∈ allocTargets mp mw cb signals,
      t.2 = min mw ((1 - cb) / (min mp.toNat signals.length : ℚ))) ∧
    (signals = [] → allocTargets mp mw cb signals = []) := by
  have hn : max 1 (min mp 9999) = mp := by omega
  have hbudget : max 0 (1 - cb) = 1 - cb := by
    rw [max_eq_right]
    linarith
  have htake : signals.take mp.toNat = signals.take (min mp.toNat signals.length) := by
    rw [List.take_eq_take]
    omega
  refine ⟨?_, ?_, ?_⟩
  · simp only [allocTargets, hn, hbudget]
    split_ifs with hemp
    · rw [List.isEmpty_iff] at hemp
      rw [← htake, hemp]
      rfl
    · rw [List.map_map, htake]
      rfl
  · intro t ht
    simp only [allocTargets, hn, hbudget] at ht
    split_ifs at ht with hemp
    · simp at ht
    · obtain ⟨s, hs, rfl⟩ := List.mem_map.mp ht
      simp only [List.length_take]
      rw [htake, List.length_take] at *
      simp
  · intro hnil
    simp [allocTargets, hnil]

/-- C8 witness: the spec scenario, two ranked signals with max_positions 5,
max weight 0.08 and cash buffer 0.03 both receive weight 0.08. -/
theorem c8_allocator_witness :
    ((1:ℤ) ≤ 5 ∧ (5:ℤ) ≤ 50 ∧ (0:ℚ) ≤ 3/100 ∧ (3/100:ℚ) ≤ 1/10) ∧
    (∀ t ∈ allocTargets 5 (2/25) (3/100)
        [{ symbol := "AAA", score := 9/10, rank := some 1 },
         { symbol := "BBB", score := 1/2, rank := some 2 }],
      t.2 = min (2/25 : ℚ)
        ((1 - 3/100) /
          (min (5:ℤ).toNat
            ([{ symbol := "AAA", score := 9/10, rank := some 1 },
              { symbol := "BBB", score := 1/2, rank := some 2 }] :
              List SignalRow).length : ℚ))) ∧
    ∀ t ∈ allocTargets 5 (2/25) (3/100)
        [{ symbol := "AAA", score := 9/10, rank := some 1 },
         { symbol := "BBB", score := 1/2, rank := some 2 }],
      t.2 = 2/25 := by
  have hmain := (c8_allocator 5 (2/25) (3/100)
    [{ symbol := "AAA", score := 9/10, rank := some 1 },
     { symbol := "BBB", score := 1/2, rank := some 2 }]
    (by norm_num) (by norm_num) (by norm_num) (by norm_num)).2.1
  refine ⟨by norm_num, hmain, ?_⟩
  intro t ht
  have := hmain t ht
  rw [this]
  norm_num

/-! ### Ticket Materializer (`scripts/ticket_render.py`)

The canonical material payload (`_economic_material_input`), the ticket
identity (`_get_or_create_ticket_id`) and the creation-time reuse of `main`.
The SHA-256 hash is `sha256(json.dumps(material, sort_keys, compact))`: it is
a function of the material payload, so equality of material payloads entails
equality of material hashes. -/

/-- Python `Decimal.quantize(..., ROUND_HALF_UP)` scaled to an integer:
round to nearest, ties away from zero. -/
def roundHalfUpZ (x : ℚ) : ℤ :=
  if x < 0 then -⌊-x + 1/2⌋ else ⌊x + 1/2⌋

/-- Decimal digits of `n` left-padded with zeros to width `d`. -/
def natPadLeft (n d : ℕ) : String :=
  let s := toString n
  String.mk (List.replicate (d - s.length) '0') ++ s

/-- Fixed-point decimal string of `n * 10^(-d)` with exactly `d` decimals
(Python `format(decimal, "f")`; the sign of an exact zero is not tracked,
which the pipeline's non-negative quantities never exercise). -/
def scaledDecString (n : ℤ) (d : ℕ) : String :=
  let a := n.natAbs
  let ip := a / 10 ^ d
  let fp := a % 10 ^ d
  let base :=
    if d = 0 then toString ip else toString ip ++ "." ++ natPadLeft fp d
  if n < 0 then "-" ++ base else base

/-- The `_fmt_decimal` helper on an optional numeric value: half-up quantize
to `decimals` places, render fixed-point, strip trailing zeros then a
trailing dot when `decimals > 0`. -/
def fmtDecimal (v : Option ℚ) (decimals : ℕ) : Option String :=
  match v with
  | none => none
  | some q =>
    let s := scaledDecString (roundHalfUpZ (q * (10 : ℚ) ^ decimals)) decimals
    some (if 0 < decimals then
        pyRstrip (pyRstrip s (fun c => decide (c = '0'))) (fun c => decide (c = '.'))
      else s)

/-- Risk-check entry of the ticket payload. -/
structure RCEntry where
  name : String
  passed : Bool
deriving DecidableEq

/-- Blocking-reason entry of the ticket payload (`{code, detail}`). -/
structure PReason where
  code : String
  detail : String
deriving DecidableEq

/-- Intended-trade row of the ticket payload (from `trades_intended.json`). -/
structure PIntent where
  sequence : ℕ
  internalSymbol : String
  side : String
  orderType : String
  units : Option ℚ
  notionalValueBase : Option ℚ
  limitPrice : Option ℚ
  referencePrice : Option ℚ
  maxSlippageBps : Option ℤ
  rationale : String
deriving DecidableEq

/-- Confirmed-fill row of the ticket payload (from `ledger_trades_fills`). -/
structure PFill where
  sequence : ℕ
  internalSymbol : String
  side : String
  executedStatus : String
  executedValueBase : Option ℚ
  units : Option ℚ
  fillPrice : Option ℚ
  filledAt : Option String
  notes : Option String
deriving DecidableEq

/-- The ticket payload fields read by the material function, plus the
identity and creation-time fields; pointer/metadata fields that feed neither
the material hash nor the claims are omitted. -/
structure TicketPayload where
  ticketId : String
  runId : String
  asofDate : String
  baseCurrency : String
  createdUtc : String
  decisionType : String
  enabledSymbols : List String
  benchmarkSymbols : List String
  riskChecks : List RCEntry
  blockingReasons : List PReason
  intendedTrades : List PIntent
  confirmedFills : List PFill
deriving DecidableEq

/-- Material-payload intended trade: formatted decimal strings, normalized
symbol and side. -/
structure MIntent where
  internalSymbol : String
  side : String
  orderType : Option String
  units : Option String
  notionalValueBase : Option String
  limitPrice : Option String
  referencePrice : Option String
  maxSlippageBps : Option ℤ
deriving DecidableEq

/-- Material-payload confirmed fill. -/
structure MFill where
  internalSymbol : String
  side : String
  executedStatus : String
  units : Option String
  fillPrice : Option String
  executedValueBase : Option String
deriving DecidableEq

/-- The canonical material payload (`economic_v1`). -/
structure MaterialInput where
  schema : String
  decisionType : String
  asofDate : String
  baseCurrency : String
  enabledSymbols : List String
  benchmarkSymbols : List String
  riskChecks : List RCEntry
  blockingReasonCodes : List String
  intendedTrades : List MIntent
  confirmedFills : List MFill
deriving DecidableEq

/-- The fixed rank of the six known check names (the `order` dict; 999 for
anything else, which the filter then drops). -/
def checkOrder (n : String) : ℕ :=
  if n = "data_quality" then 10 else if n = "reconciliation" then 20
  else if n = "confirmations" then 30 else if n = "universe_verified" then 40
  else if n = "ledger_ready" then 50 else if n = "trade_builder" then 60
  else 999

/-- Membership of a check name in the known set. -/
def knownCheck (n : String) : Bool := decide (checkOrder n ≠ 999)

/-- The `side_order` dict of the material sort: BUY 0, SELL 1, other 9. -/
def sideRankCode (s : String) : ℕ :=
  if s = "BUY" then 0 else if s = "SELL" then 1 else 9

/-- The `int(t.get("max_slippage_bps") or -1)` key component (Python `or`
maps both a missing and a zero value to -1). -/
def slipKey (t : MIntent) : ℤ :=
  match t.maxSlippageBps with
  | some n => if n = 0 then -1 else n
  | none => -1

/-- The material intended-trade sort key comparator: instrument, side rank
(BUY before SELL), then the remaining formatted fields. -/
def mIntentCmp (a b : MIntent) : Ordering :=
  (cmpStr a.internalSymbol b.internalSymbol).then
    ((cmpNat (sideRankCode a.side) (sideRankCode b.side)).then
      ((cmpStr (a.orderType.getD "") (b.orderType.getD "")).then
        ((cmpStr (a.units.getD "") (b.units.getD "")).then
          ((cmpStr (a.notionalValueBase.getD "") (b.notionalValueBase.getD "")).then
            ((cmpStr (a.limitPrice.getD "") (b.limitPrice.getD "")).then
              ((cmpStr (a.referencePrice.getD "") (b.referencePrice.getD "")).then
                (cmpInt (slipKey a) (slipKey b))))))))

/-- The material confirmed-fill sort key comparator. -/
def mFillCmp (a b : MFill) : Ordering :=
  (cmpStr a.internalSymbol b.internalSymbol).then
    ((cmpStr a.side b.side).then
      ((cmpStr a.executedStatus b.executedStatus).then
        ((cmpStr (a.units.getD "") (b.units.getD "")).then
          ((cmpStr (a.fillPrice.getD "") (b.fillPrice.getD "")).then
            (cmpStr (a.executedValueBase.getD "") (b.executedValueBase.getD ""))))))

/-- The risk-check sort key comparator: fixed order rank, then name. -/
def rcCmp (a b : RCEntry) : Ordering :=
  (cmpNat (checkOrder a.name) (checkOrder b.name)).then (cmpStr a.name b.name)

theorem isCmp_mIntentCmp : IsCmp mIntentCmp :=
  IsCmp.thenCmp (isCmp_cmpStr.comap MIntent.internalSymbol)
    (IsCmp.thenCmp (isCmp_cmpNat.comap (fun t => sideRankCode t.side))
      (IsCmp.thenCmp (isCmp_cmpStr.comap (fun t => t.orderType.getD ""))
        (IsCmp.thenCmp (isCmp_cmpStr.comap (fun t => t.units.getD ""))
          (IsCmp.thenCmp (isCmp_cmpStr.comap (fun t => t.notionalValueBase.getD ""))
            (IsCmp.thenCmp (isCmp_cmpStr.comap (fun t => t.limitPrice.getD ""))
              (IsCmp.thenCmp (isCmp_cmpStr.comap (fun t => t.referencePrice.getD ""))
                (isCmp_cmpInt.comap slipKey)))))))

theorem isCmp_mFillCmp : IsCmp mFillCmp :=
  IsCmp.thenCmp (isCmp_cmpStr.comap MFill.internalSymbol)
    (IsCmp.thenCmp (isCmp_cmpStr.comap MFill.side)
      (IsCmp.thenCmp (isCmp_cmpStr.comap MFill.executedStatus)
        (IsCmp.thenCmp (isCmp_cmpStr.comap (fun f => f.units.getD ""))
          (IsCmp.thenCmp (isCmp_cmpStr.comap (fun f => f.fillPrice.getD ""))
            (isCmp_cmpStr.comap (fun f => f.executedValueBase.getD ""))))))

theorem isCmp_rcCmp : IsCmp rcCmp :=
  IsCmp.thenCmp (isCmp_cmpNat.comap (fun rc => checkOrder rc.name))
    (isCmp_cmpStr.comap RCEntry.name)

/-- Normalized material intended trade: strip/uppercase, drop entries with
an empty symbol or side, format the numeric fields (6dp units, 2dp currency,
4dp prices). -/
def toMIntent (t : PIntent) : Option MIntent :=
  let side := pyStrip (pyUpper t.side)
  let sym := pyStrip t.internalSymbol
  if sym = "" ∨ side = "" then none
  else
    some { internalSymbol := sym, side := side,
           orderType := (let o := pyStrip t.orderType;
             if o = "" then none else some o),
           units := fmtDecimal t.units 6,
           notionalValueBase := fmtDecimal t.notionalValueBase 2,
           limitPrice := fmtDecimal t.limitPrice 4,
           referencePrice := fmtDecimal t.referencePrice 4,
           maxSlippageBps := t.maxSlippageBps }

/-- Normalized material confirmed fill: drop entries with an empty symbol,
side or status; the fill timestamp and notes do not appear. -/
def toMFill (f : PFill) : Option MFill :=
  let sym := pyStrip f.internalSymbol
  let side := pyStrip (pyUpper f.side)
  let status := pyStrip f.executedStatus
  if sym = "" ∨ side = "" ∨ status = "" then none
  else
    some { internalSymbol := sym, side := side, executedStatus := status,
           units := fmtDecimal f.units 6,
           fillPrice := fmtDecimal f.fillPrice 4,
           executedValueBase := fmtDecimal f.executedValueBase 2 }

/-- Risk-check normalization: strip the name, drop empty names. -/
def normRiskCheck (rc : RCEntry) : Option RCEntry :=
  let name := pyStrip rc.name
  if name = "" then none else some { name := name, passed := rc.passed }

/-- Python `sorted(set(...))` on strings. -/
def sortedDedupStr (l : List String) : List String := sortByCmp cmpStr l.dedup

/-- The `_economic_material_input` function: the canonical, sorted,
fixed-precision material payload of a ticket.  The creation timestamp and
the fills' free-text notes fields are never read. -/
def economicMaterialInput (p : TicketPayload) : MaterialInput :=
  { schema := "economic_v1",
    decisionType := p.decisionType,
    asofDate := p.asofDate,
    baseCurrency := if p.baseCurrency = "" then "GBP" else p.baseCurrency,
    enabledSymbols := sortByCmp cmpStr p.enabledSymbols,
    benchmarkSymbols := sortByCmp cmpStr p.benchmarkSymbols,
    riskChecks := sortByCmp rcCmp
      ((p.riskChecks.filterMap normRiskCheck).filter
        (fun rc => knownCheck rc.name)),
    blockingReasonCodes := sortedDedupStr
      (p.blockingReasons.filterMap (fun r =>
        let c := pyStrip r.code
        if c = "" then none else some c)),
    intendedTrades := sortByCmp mIntentCmp (p.intendedTrades.filterMap toMIntent),
    confirmedFills := sortByCmp mFillCmp (p.confirmedFills.filterMap toMFill) }

theorem cmpStr_eq_iff {a b : String} : cmpStr a b = .eq ↔ a = b := by
  constructor
  · intro h
    have hd := cmpChars_eq_iff.mp h
    cases a with
    | mk da =>
      cases b with
      | mk db => exact congrArg String.mk hd
  · intro h
    rw [h]
    exact cmpChars_eq_iff.mpr rfl

/-- Pointwise replacement of the fills' free-text notes (position `i` gets
`notes i`); composing with a new creation timestamp generates every payload
that differs from `p` only in the creation timestamp and notes fields. -/
def setFillNotes : List PFill → (ℕ → Option String) → ℕ → List PFill
  | [], _, _ => []
  | f :: fs, notes, i => { f with notes := notes i } :: setFillNotes fs notes (i + 1)

/-- A payload differing from `p` only in the ticket creation timestamp and
the fills' notes. -/
def withTimestampAndNotes (p : TicketPayload) (ts : String)
    (notes : ℕ → Option String) : TicketPayload :=
  { p with createdUtc := ts,
           confirmedFills := setFillNotes p.confirmedFills notes 0 }

theorem toMFill_notes (f : PFill) (n : Option String) :
    toMFill { f with notes := n } = toMFill f := rfl

theorem setFillNotes_filterMap (notes : ℕ → Option String) :
    ∀ (fs : List PFill) (i : ℕ),
      (setFillNotes fs notes i).filterMap toMFill = fs.filterMap toMFill
  | [], _ => rfl
  | f :: fs, i => by
    simp only [setFillNotes, List.filterMap_cons, toMFill_notes,
      setFillNotes_filterMap notes fs (i + 1)]

/-- C4: two ticket payloads that differ only in the ticket creation
timestamp and/or the free-text notes of confirmed fills produce the same
canonical material payload, hence the same SHA-256 material hash (the hash
is a function of this payload; the ticket itself has no other free-text
notes field). -/
theorem c4_material_hash_invariance (p : TicketPayload) (ts : String)
    (notes : ℕ → Option String) :
    economicMaterialInput (withTimestampAndNotes p ts notes) =
      economicMaterialInput p := by
  unfold economicMaterialInput withTimestampAndNotes
  simp only [setFillNotes_filterMap]

/-- Existing ticket row for the run (`tickets` keyed by `run_id`). -/
structure ExistingTicket where
  ticketId : String
  createdAtUtc : String
deriving DecidableEq

/-- The `_get_or_create_ticket_id` function.  `uuid5` stands for the
deterministic `uuid.uuid5(TICKET_NAMESPACE, name)` digest under the fixed
namespace; the name is `"{run_id}:{decision_type}"`. -/
def getOrCreateTicketId (uuid5 : String → String)
    (existing : Option ExistingTicket) (runId decisionType : String) : String :=
  match existing with
  | some e => e.ticketId
  | none => uuid5 (runId ++ ":" ++ decisionType)

/-- Creation time used by `main`: the existing ticket's original creation
time when present and non-empty, else the current time. -/
def ticketCreatedUtc (existing : Option ExistingTicket) (now : String) : String :=
  match existing with
  | some e => if e.createdAtUtc = "" then now else e.createdAtUtc
  | none => now

/-- A payload differing from `p` only in the creation timestamp. -/
def withCreated (p : TicketPayload) (ts : String) : TicketPayload :=
  { p with createdUtc := ts }

/-- C5: the materializer reuses an existing ticket's identity and original
creation time; otherwise it derives the identity deterministically from
`(run id, decision_type)` under the fixed namespace.  Re-materializing with
the previously created identity on record returns that same identity, and
the material payload (hence the material hash) does not depend on the
creation time, so repeated materialization of the same run with identical
facts yields the same ticket identity and material hash. -/
theorem c5_ticket_identity (uuid5 : String → String) (e : ExistingTicket)
    (runId decisionType now c ts : String) (p : TicketPayload) :
    getOrCreateTicketId uuid5 (some e) runId decisionType = e.ticketId ∧
    getOrCreateTicketId uuid5 none runId decisionType =
      uuid5 (runId ++ ":" ++ decisionType) ∧
    getOrCreateTicketId uuid5
        (some { ticketId := getOrCreateTicketId uuid5 none runId decisionType,
                createdAtUtc := c }) runId decisionType =
      getOrCreateTicketId uuid5 none runId decisionType ∧
    ticketCreatedUtc (some e) now =
      (if e.createdAtUtc = "" then now else e.createdAtUtc) ∧
    ticketCreatedUtc none now = now ∧
    economicMaterialInput (withCreated p ts) = economicMaterialInput p :=
  ⟨rfl, rfl, rfl, rfl, rfl, rfl⟩

/-- Rank realising the side order claimed by the spec sentence
(SELL before BUY). -/
def sellFirstRank (s : String) : ℕ :=
  if s = "SELL" then 0 else if s = "BUY" then 1 else 9

/-- The claimed material ordering: instrument id first, then side with SELL
ordering before BUY. -/
def specSellBeforeBuy (a b : MIntent) : Prop :=
  cmpStr a.internalSymbol b.internalSymbol = .lt ∨
    (a.internalSymbol = b.internalSymbol ∧
      sellFirstRank a.side ≤ sellFirstRank b.side)

instance : DecidableRel specSellBeforeBuy := fun a b => by
  unfold specSellBeforeBuy
  infer_instance

/-- C6 (amended): in the canonical material payload, intended trades are
sorted with key instrument id first, then side with BUY ordering before
SELL (the source's `side_order` is BUY 0, SELL 1). -/
theorem c6_material_trade_sort (p : TicketPayload) :
    (economicMaterialInput p).intendedTrades.Pairwise
      (fun a b => cmpStr a.internalSymbol b.internalSymbol = .lt ∨
        (a.internalSymbol = b.internalSymbol ∧
          sideRankCode a.side ≤ sideRankCode b.side)) := by
  have hp := sortByCmp_pairwise isCmp_mIntentCmp
    (p.intendedTrades.filterMap toMIntent)
  refine hp.imp ?_
  intro a b hr
  unfold cmpLE mIntentCmp at hr
  cases hsym : cmpStr a.internalSymbol b.internalSymbol with
  | lt => exact Or.inl rfl
  | eq =>
    refine Or.inr ⟨cmpStr_eq_iff.mp hsym, ?_⟩
    rw [hsym] at hr
    simp only [Ordering.then] at hr
    cases hrank : cmpNat (sideRankCode a.side) (sideRankCode b.side) with
    | lt => exact le_of_lt (cmpNat_lt_iff.mp hrank)
    | eq => exact le_of_eq (cmpNat_eq_iff.mp hrank)
    | gt =>
      rw [hrank] at hr
      simp [Ordering.then] at hr
  | gt =>
    rw [hsym] at hr
    simp [Ordering.then] at hr

/-- Ticket payload for the C6 counterexample: two intended trades on the
same instrument, one SELL and one BUY. -/
def c6Payload : TicketPayload :=
  { ticketId := "t", runId := "r", asofDate := "2025-01-06",
    baseCurrency := "GBP", createdUtc := "2025-01-06T10:00:00Z",
    decisionType := "TRADE", enabledSymbols := [], benchmarkSymbols := [],
    riskChecks := [], blockingReasons := [],
    intendedTrades :=
      [{ sequence := 1, internalSymbol := "AAA", side := "SELL",
         orderType := "MKT", units := none, notionalValueBase := none,
         limitPrice := none, referencePrice := none,
         maxSlippageBps := some 50, rationale := "x" },
       { sequence := 2, internalSymbol := "AAA", side := "BUY",
         orderType := "MKT", units := none, notionalValueBase := none,
         limitPrice := none, referencePrice := none,
         maxSlippageBps := some 50, rationale := "x" }],
    confirmedFills := [] }

/-- C6 counterexample: the materialized trade list for `c6Payload` puts the
BUY entry before the SELL entry on the same instrument, so it is not sorted
with SELL before BUY as the claim states. -/
theorem c6_counterexample :
    ((economicMaterialInput c6Payload).intendedTrades.map (·.side) =
      ["BUY", "SELL"]) ∧
    ¬ (economicMaterialInput c6Payload).intendedTrades.Pairwise
        specSellBeforeBuy := by
  decide

/-! ### Confirmation Reconciler (`scripts/confirmations_submit.py`, `_load_fills`)

One submitted fill object; fields that are absent, null or of the wrong JSON
type are modelled as `none` (the source rejects a wrong-typed sequence or
symbol exactly as it rejects a missing one).  `_load_fills` validates every
fill and raises on the first violation; `main` executes the persisting SQL
transaction only after `_load_fills` returned, so a raised validation error
means nothing is persisted.  The `Except` result models this: the `.error`
case carries the message of the raised `ValueError`. -/

/-- Submitted fill object (one element of the fills JSON list). -/
structure FillIn where
  sequence : Option ℤ
  internalSymbol : Option String
  side : Option String
  executedStatus : Option String
  executedValueBase : Option ℚ
  units : Option ℚ
  fillPrice : Option ℚ
  filledAt : Option String
  notes : Option String
deriving DecidableEq

/-- Accepted, normalized fill as persisted into `ledger_trades_fills`. -/
structure FillOut where
  sequence : ℤ
  internalSymbol : String
  side : String
  executedStatus : String
  executedValueBase : Option ℚ
  units : Option ℚ
  fillPrice : Option ℚ
  filledAt : Option String
  notes : Option String
deriving DecidableEq

/-- Negative-value test on an optional quantity (`x is not None and x < 0`). -/
def qNegB (o : Option ℚ) : Bool :=
  match o with
  | some v => decide (v < 0)
  | none => false

/-- Derivation of the executed value: `units * price` when the value is
absent and both operands are present, the submitted value otherwise. -/
def deriveValue (v u px : Option ℚ) : Option ℚ :=
  match v, u, px with
  | none, some u, some px => some (u * px)
  | v, _, _ => v

/-- Validation of one fill, mirroring the per-element checks of
`_load_fills` in source order: positive integer sequence, non-empty symbol,
side BUY or SELL, known executed status, derived executed value, non-negative
value/units/price, and a basic ISO shape for a present fill timestamp on
DONE or PARTIAL. -/
def validateFill (f : FillIn) : Except String FillOut :=
  match f.sequence with
  | none => .error "sequence must be int >= 1"
  | some seq =>
    if seq < 1 then .error "sequence must be int >= 1"
    else
      match f.internalSymbol with
      | none => .error "internal_symbol must be non-empty string"
      | some sym =>
        if pyStrip sym = "" then .error "internal_symbol must be non-empty string"
        else if ¬ (pyStrip (pyUpper (f.side.getD "")) = "BUY" ∨
            pyStrip (pyUpper (f.side.getD "")) = "SELL") then
          .error "side must be BUY or SELL"
        else if ¬ (pyStrip (pyUpper (f.executedStatus.getD "")) = "DONE" ∨
            pyStrip (pyUpper (f.executedStatus.getD "")) = "SKIPPED" ∨
            pyStrip (pyUpper (f.executedStatus.getD "")) = "FAILED" ∨
            pyStrip (pyUpper (f.executedStatus.getD "")) = "PARTIAL") then
          .error "executed_status must be DONE|SKIPPED|FAILED|PARTIAL"
        else if qNegB (deriveValue f.executedValueBase f.units f.fillPrice) then
          .error "executed_value_base must be >= 0"
        else if qNegB f.units then .error "units must be >= 0"
        else if qNegB f.fillPrice then .error "fill_price must be >= 0"
        else if (pyStrip (pyUpper (f.executedStatus.getD "")) = "DONE" ∨
              pyStrip (pyUpper (f.executedStatus.getD "")) = "PARTIAL") ∧
            pyStrip (f.filledAt.getD "") ≠ "" ∧
            ¬ ((pyStrip (f.filledAt.getD "")).data.contains 'T' = true) then
          .error "filled_at must be ISO-8601 datetime"
        else
          .ok { sequence := seq, internalSymbol := pyStrip sym,
                side := pyStrip (pyUpper (f.side.getD "")),
                executedStatus := pyStrip (pyUpper (f.executedStatus.getD "")),
                executedValueBase :=
                  deriveValue f.executedValueBase f.units f.fillPrice,
                units := f.units, fillPrice := f.fillPrice,
                filledAt := if pyStrip (f.filledAt.getD "") = "" then none
                  else some (pyStrip (f.filledAt.getD "")),
                notes := if pyStrip (f.notes.getD "") = "" then none
                  else some (pyStrip (f.notes.getD "")) }

/-- Validation of the whole fills list, stopping at the first invalid fill
(the raised `ValueError` of the source). -/
def validateAll : List FillIn → Except String (List FillOut)
  | [] => .ok []
  | f :: fs =>
    match validateFill f with
    | .error e => .error e
    | .ok o =>
      match validateAll fs with
      | .error e => .error e
      | .ok os => .ok (o :: os)

/-- Comparator for the final `out.sort(key=sequence)`. -/
def fillSeqCmp (a b : FillOut) : Ordering := cmpInt a.sequence b.sequence

/-- The `_load_fills` function: validate every fill, then sort by sequence.
Anything downstream persists only the `.ok` payload. -/
def loadFills (fs : List FillIn) : Except String (List FillOut) :=
  (validateAll fs).map (sortByCmp fillSeqCmp)

theorem validateFill_ok_props {f : FillIn} {o : FillOut}
    (h : validateFill f = .ok o) :
    1 ≤ o.sequence ∧ o.internalSymbol ≠ "" ∧
      (o.side = "BUY" ∨ o.side = "SELL") ∧
      (o.executedStatus = "DONE" ∨ o.executedStatus = "SKIPPED" ∨
        o.executedStatus = "FAILED" ∨ o.executedStatus = "PARTIAL") ∧
      (∀ v, o.executedValueBase = some v → 0 ≤ v) ∧
      (∀ u, o.units = some u → 0 ≤ u) ∧
      (∀ px, o.fillPrice = some px → 0 ≤ px) := by
  unfold validateFill at h
  split at h
  · cases h
  · rename_i seq hseq
    split at h
    · cases h
    · rename_i hseq1
      split at h
      · cases h
      · rename_i sym hsym
        split at h
        · cases h
        · rename_i hsyme
          split at h
          · cases h
          · rename_i hside
            split at h
            · cases h
            · rename_i hstatus
              split at h
              · cases h
              · rename_i hval
                split at h
                · cases h
                · rename_i hunits
                  split at h
                  · cases h
                  · rename_i hpx
                    split at h
                    · cases h
                    · rename_i hiso
                      cases h
                      push_neg at hside hstatus
                      refine ⟨show (1 : ℤ) ≤ seq by omega, hsyme, hside,
                        hstatus, ?_, ?_, ?_⟩
                      · intro v hv
                        have hv' : deriveValue f.executedValueBase f.units
                            f.fillPrice = some v := hv
                        rw [hv'] at hval
                        simp only [qNegB, decide_eq_true_eq] at hval
                        linarith [not_lt.mp hval]
                      · intro u hu
                        have hu' : f.units = some u := hu
                        rw [hu'] at hunits
                        simp only [qNegB, decide_eq_true_eq] at hunits
                        linarith [not_lt.mp hunits]
                      · intro px hpx'
                        have hpx'' : f.fillPrice = some px := hpx'
                        rw [hpx''] at hpx
                        simp only [qNegB, decide_eq_true_eq] at hpx
                        linarith [not_lt.mp hpx]

theorem validateFill_ok_value {f : FillIn} {o : FillOut}
    (h : validateFill f = .ok o) :
    o.executedValueBase =
      deriveValue f.executedValueBase f.units f.fillPrice := by
  unfold validateFill at h
  split at h
  · cases h
  · rename_i seq hseq
    split at h
    · cases h
    · rename_i hseq1
      split at h
      · cases h
      · rename_i sym hsym
        split at h
        · cases h
        · rename_i hsyme
          split at h
          · cases h
          · rename_i hside
            split at h
            · cases h
            · rename_i hstatus
              split at h
              · cases h
              · rename_i hval
                split at h
                · cases h
                · rename_i hunits
                  split at h
                  · cases h
                  · rename_i hpx
                    split at h
                    · cases h
                    · rename_i hiso
                      cases h
                      rfl

theorem validateAll_mem {fs : List FillIn} {out : List FillOut}
    (h : validateAll fs = .ok out) :
    ∀ o ∈ out, ∃ f ∈ fs, validateFill f = .ok o := by
  induction fs generalizing out with
  | nil =>
    cases h
    intro o ho
    simp at ho
  | cons f fs ih =>
    unfold validateAll at h
    cases hv : validateFill f with
    | error e => rw [hv] at h; cases h
    | ok o₀ =>
      rw [hv] at h
      cases hrest : validateAll fs with
      | error e => rw [hrest] at h; cases h
      | ok os =>
        rw [hrest] at h
        cases h
        intro o ho
        rcases List.mem_cons.mp ho with rfl | ho'
        · exact ⟨f, List.mem_cons_self _ _, hv⟩
        · obtain ⟨f', hf', hval⟩ := ih hrest o ho'
          exact ⟨f', List.mem_cons_of_mem _ hf', hval⟩

theorem validateAll_error_of_mem {fs : List FillIn} {f : FillIn}
    (hmem : f ∈ fs) {e : String} (he : validateFill f = .error e) :
    ∃ e', validateAll fs = .error e' := by
  induction fs with
  | nil => simp at hmem
  | cons g gs ih =>
    rcases List.mem_cons.mp hmem with rfl | hmem'
    · exact ⟨e, by unfold validateAll; rw [he]⟩
    · unfold validateAll
      cases hv : validateFill g with
      | error e₀ => exact ⟨e₀, rfl⟩
      | ok o =>
        obtain ⟨e', he'⟩ := ih hmem'
        rw [he']
        exact ⟨e', rfl⟩

/-- C9: every fill accepted by `_load_fills` for persistence has a positive
integer sequence, a non-empty instrument id, side BUY or SELL, a known
executed status, and non-negative value, units and price where present; the
executed value is derived as units times price when absent with both
operands present; and a list containing any invalid fill is rejected as a
whole (an error result, so nothing reaches the persistence transaction). -/
theorem c9_fill_validation (fs : List FillIn) (out : List FillOut)
    (h : loadFills fs = .ok out) :
    (∀ o ∈ out, 1 ≤ o.sequence ∧ o.internalSymbol ≠ "" ∧
      (o.side = "BUY" ∨ o.side = "SELL") ∧
      (o.executedStatus = "DONE" ∨ o.executedStatus = "SKIPPED" ∨
        o.executedStatus = "FAILED" ∨ o.executedStatus = "PARTIAL") ∧
      (∀ v, o.executedValueBase = some v → 0 ≤ v) ∧
      (∀ u, o.units = some u → 0 ≤ u) ∧
      (∀ px, o.fillPrice = some px → 0 ≤ px)) ∧
    (∀ (f : FillIn) (o' : FillOut), validateFill f = .ok o' →
      f.executedValueBase = none → ∀ u px, f.units = some u →
        f.fillPrice = some px → o'.executedValueBase = some (u * px)) ∧
    (∀ (fs' : List FillIn) (f : FillIn), f ∈ fs' →
      (∃ e, validateFill f = .error e) → ∃ e, loadFills fs' = .error e) := by
  refine ⟨?_, ?_, ?_⟩
  · intro o ho
    unfold loadFills at h
    cases hva : validateAll fs with
    | error e => rw [hva] at h; cases h
    | ok os =>
      rw [hva] at h
      cases h
      have ho' : o ∈ os := mem_sortByCmp.mp ho
      obtain ⟨f, -, hval⟩ := validateAll_mem hva o ho'
      exact validateFill_ok_props hval
  · intro f o' hok hnone u px hu hpx
    rw [validateFill_ok_value hok, hnone, hu, hpx]
    rfl
  · intro fs' f hmem ⟨e, he⟩
    obtain ⟨e', he'⟩ := validateAll_error_of_mem hmem he
    exact ⟨e', by unfold loadFills; rw [he']; rfl⟩

/-- Submitted fill for the C9 witness: lowercase side normalized to BUY. -/
def c9Fill : FillIn :=
  { sequence := some 1, internalSymbol := some "AAA", side := some "buy",
    executedStatus := some "DONE", executedValueBase := none, units := none,
    fillPrice := none, filledAt := none, notes := none }

/-- Accepted, normalized form of the C9 witness fill. -/
def c9FillOut : FillOut :=
  { sequence := 1, internalSymbol := "AAA", side := "BUY",
    executedStatus := "DONE", executedValueBase := none, units := none,
    fillPrice := none, filledAt := none, notes := none }

/-- C9 witness: the concrete valid fill is accepted, normalized, and
satisfies every validated property. -/
theorem c9_fill_validation_witness :
    loadFills [c9Fill] = .ok [c9FillOut] ∧
    (∀ o ∈ [c9FillOut], 1 ≤ o.sequence ∧
      o.internalSymbol ≠ "" ∧
      (o.side = "BUY" ∨ o.side = "SELL") ∧
      (o.executedStatus = "DONE" ∨ o.executedStatus = "SKIPPED" ∨
        o.executedStatus = "FAILED" ∨ o.executedStatus = "PARTIAL") ∧
      (∀ v, o.executedValueBase = some v → 0 ≤ v) ∧
      (∀ u, o.units = some u → 0 ≤ u) ∧
      (∀ px, o.fillPrice = some px → 0 ≤ px)) := by
  have hld : loadFills [c9Fill] = .ok [c9FillOut] := by rfl
  exact ⟨hld, (c9_fill_validation [c9Fill] [c9FillOut] hld).1⟩

end TradingOps
